import Mathlib

/-!
Verification development for the `nightfeed` repository
(`src/rss_site_bridge/app.py`).

This file gives a shallow embedding, in Lean 4, of the extraction /
filtering pipeline and the refresh scheduling state machine of
`rss_site_bridge/app.py`, and proves (or refutes) the frozen claims about
that code.

Modelling conventions used throughout:
* Python strings are Lean `String`s; `str.casefold`, `str.lower` and the
  `re` word classes are modelled at ASCII level (`String.toLower`,
  `Char.isAlphanum`), which is faithful for every string the program and
  its tests use.
* Timestamps are modelled as `Option Int` (absolute time in minutes since
  an arbitrary epoch); the empty DB text `''` is `none`.  The program only
  ever compares timestamps produced by `datetime.now(timezone.utc)
  .isoformat()` and re-parsed by `datetime.fromisoformat`, for which the
  text round trip is exact and order preserving, so `Int` comparison is a
  faithful model of the `datetime` comparison in `should_refresh`.
* Exceptions become `Except AppError`; `ValueError` and `RuntimeError`
  keep their message strings verbatim.
* The DOM ("BeautifulSoup" trees) is a rose tree `DomNode`; the injected
  selector capability (`soup.select`, `tag.select_one`) is modelled by a
  small engine handling type selectors (`a`, `li`, ...) and class
  selectors (`.topic`); pseudo-class selectors match no descendant.  The
  `:scope` / `self` special cases that `app.py` itself implements
  (`select_node_with_scope`, `select_nodes_with_scope`) are translated
  from the source, not folded into the engine.
* All definitions are structurally recursive (with explicit fuel where the
  Python loop is not structural), so every definition evaluates by kernel
  reduction on concrete inputs.
-/

/-- Model of Python `\s` (ASCII part), as used by `re` in the tokenizer
and by `str.strip`/`str.split`. -/
def isPySpace (c : Char) : Bool :=
  c = ' ' || c = '\t' || c = '\n' || c = '\r' || c = Char.ofNat 11 || c = Char.ofNat 12

/-- Model of Python `\w` (ASCII part): letters, digits and underscore.
Used for the `\b` word boundaries of the tokenizer regex. -/
def isWordChar (c : Char) : Bool :=
  c.isAlphanum || c = '_'

/-- Model of Python `str.strip()` on character lists. -/
def stripChars (cs : List Char) : List Char :=
  ((cs.dropWhile isPySpace).reverse.dropWhile isPySpace).reverse

/-- Model of Python `str.strip()`. -/
def pyStrip (s : String) : String :=
  String.mk (stripChars s.toList)

/-- Model of Python `str.casefold()` / `str.lower()` at ASCII level. -/
def pyLower (s : String) : String :=
  String.mk (s.toList.map Char.toLower)

/-- Split a character list on a separator character (model of
`str.split(sep)` / `str.splitlines()` for the single separators used by
the program).  Always returns a non-empty list of pieces. -/
def splitOnChar (sep : Char) : List Char → List (List Char)
  | [] => [[]]
  | c :: rest =>
    match splitOnChar sep rest with
    | [] => [[]]
    | cur :: done =>
      if c = sep then [] :: cur :: done
      else (c :: cur) :: done

/-- Join character-list pieces with a separator list. -/
def joinWith (sep : List Char) : List (List Char) → List Char
  | [] => []
  | [piece] => piece
  | piece :: rest => piece ++ sep ++ joinWith sep rest

/-- Substring test on character lists: `isSubstr needle hay` models the
Python expression `needle in hay` on strings. -/
def isSubstr (needle : List Char) : List Char → Bool
  | [] => needle.isEmpty
  | c :: rest => needle.isPrefixOf (c :: rest) || isSubstr needle rest

/-- `strContains needle hay` models Python `needle in hay`. -/
def strContains (needle hay : String) : Bool :=
  isSubstr needle.toList hay.toList

/-- Split a character list at the first occurrence of `sep`, returning the
part before and the part after the separator. -/
def splitFirst (sep : List Char) : List Char → Option (List Char × List Char)
  | [] => if sep.isEmpty then some ([], []) else none
  | c :: rest =>
    if sep.isPrefixOf (c :: rest) then some ([], (c :: rest).drop sep.length)
    else match splitFirst sep rest with
      | some (pre, post) => some (c :: pre, post)
      | none => none

/-- Model of `" ".join(s.split())`: collapse runs of spaces and trim.
(The strings this is applied to only contain plain spaces as whitespace,
because they are produced by `get_text(" ", strip=True)`.) -/
def collapseSpaces (s : String) : String :=
  String.mk (joinWith [' '] ((splitOnChar ' ' s.toList).filter (fun part => ¬ part.isEmpty)))

/-! ## URL model

`urllib.parse.urlparse` / `urljoin` are external library functions; the
program only relies on scheme extraction, netloc extraction and
absolute/relative resolution, which the following minimal model captures
(no `..` segment normalisation, no params/query/fragment splitting beyond
stopping the netloc at `/`, `?`, `#`). -/

structure UrlParts where
  scheme : String
  netloc : String
  rest : String
deriving Repr, DecidableEq

/-- A valid URL scheme per `urlparse`: a letter followed by letters,
digits, `+`, `-`, `.`. -/
def isValidScheme (cs : List Char) : Bool :=
  match cs with
  | [] => false
  | c :: rest => c.isAlpha && rest.all (fun d => d.isAlphanum || d = '+' || d = '-' || d = '.')

/-- Minimal model of `urllib.parse.urlparse` (scheme is lowercased, netloc
is parsed only after `//`, everything else is kept in `rest`). -/
def urlparse_min (s : String) : UrlParts :=
  let cs := s.toList
  let pre := cs.takeWhile (fun c => c ≠ ':')
  let hasColon := pre.length < cs.length
  let (scheme, afterScheme) :=
    if hasColon && isValidScheme pre then
      (String.mk (pre.map Char.toLower), cs.drop (pre.length + 1))
    else ("", cs)
  match afterScheme with
  | '/' :: '/' :: tail =>
    let netloc := tail.takeWhile (fun c => c ≠ '/' && c ≠ '?' && c ≠ '#')
    { scheme := scheme, netloc := String.mk netloc, rest := String.mk (tail.drop netloc.length) }
  | other => { scheme := scheme, netloc := "", rest := String.mk other }

/-- The directory part of a path: everything up to and including the last
`/`, or `/` when the path has no slash (the shape `urljoin` produces for
the base URLs this program accepts). -/
def dirOfPath (path : String) : String :=
  let cs := path.toList
  let kept := (cs.reverse.dropWhile (fun c => c ≠ '/')).reverse
  if kept.isEmpty then "/" else String.mk kept

/-- Minimal model of `urllib.parse.urljoin source href` for the href
shapes relevant here: absolute URLs (any scheme) are returned unchanged,
`//host/...` adopts the base scheme, `/abs` is host relative, anything
else is resolved against the directory of the base path. -/
def urljoin_min (base href : String) : String :=
  if href = "" then base
  else if (urlparse_min href).scheme ≠ "" then href
  else
    let b := urlparse_min base
    match href.toList with
    | '/' :: '/' :: _ => b.scheme ++ ":" ++ href
    | '/' :: _ => b.scheme ++ "://" ++ b.netloc ++ href
    | _ => b.scheme ++ "://" ++ b.netloc ++ dirOfPath b.rest ++ href

/-! ## Glob matching (model of `fnmatch.fnmatchcase`)

`fnmatch.translate` compiles a pattern into a regex: `*` → `.*`,
`?` → `.`, `[seq]` (with optional leading `!` and `a-b` ranges) → a
character class, unclosed `[` → a literal; everything else is literal.
We compile to a token list and match directly, with explicit fuel so the
matcher is structurally recursive and kernel-evaluable. -/

inductive GlobTok where
  | star
  | anyChar
  | charClass (negated : Bool) (items : List Char)
  | lit (c : Char)
deriving Repr, DecidableEq

/-- Scan to the first `]`, returning the content before it and the
remainder after it. -/
def scanToClose : List Char → Option (List Char × List Char)
  | [] => none
  | c :: rest =>
    if c = ']' then some ([], rest)
    else match scanToClose rest with
      | some (content, tail) => some (c :: content, tail)
      | none => none

/-- Parse the body of a `[...]` class following `fnmatch.translate`: an
optional leading `!` negates; a `]` directly after `[` (or `[!`) is a
literal member; `none` when there is no closing `]`. -/
def takeCharClass (cs : List Char) : Option (Bool × List Char × List Char) :=
  let (negated, body) :=
    match cs with
    | '!' :: rest => (true, rest)
    | _ => (false, cs)
  match body with
  | ']' :: rest =>
    match scanToClose rest with
    | some (content, tail) => some (negated, ']' :: content, tail)
    | none => none
  | _ =>
    match scanToClose body with
    | some (content, tail) => some (negated, content, tail)
    | none => none

/-- Compile a glob pattern to tokens (fuel = remaining pattern length;
each step consumes at least one character, so `length + 1` suffices). -/
def compileGlobFuel : Nat → List Char → List GlobTok
  | 0, _ => []
  | _, [] => []
  | fuel + 1, c :: rest =>
    if c = '*' then .star :: compileGlobFuel fuel rest
    else if c = '?' then .anyChar :: compileGlobFuel fuel rest
    else if c = '[' then
      match takeCharClass rest with
      | some (negated, items, tail) => .charClass negated items :: compileGlobFuel fuel tail
      | none => .lit '[' :: compileGlobFuel fuel rest
    else .lit c :: compileGlobFuel fuel rest

def compileGlob (pat : List Char) : List GlobTok :=
  compileGlobFuel (pat.length + 1) pat

/-- Character class membership with `a-b` ranges (regex class semantics,
as produced by `fnmatch.translate`; a `-` at either end is literal, an
inverted range matches nothing). -/
def classMatches : List Char → Char → Bool
  | a :: '-' :: b :: rest, c =>
    (a ≤ c && c ≤ b) || classMatches rest c
  | a :: rest, c => c = a || classMatches rest c
  | [], _ => false

/-- Glob matcher over compiled tokens.  Fuel decreases on every call; each
call also decreases `tokens.length + s.length`, so
`tokens.length + s.length + 1` fuel is always sufficient. -/
def globMatchFuel : Nat → List GlobTok → List Char → Bool
  | 0, _, _ => false
  | _ + 1, [], s => s.isEmpty
  | fuel + 1, .star :: p, s =>
    globMatchFuel fuel p s ||
      (match s with
       | [] => false
       | _ :: t => globMatchFuel fuel (.star :: p) t)
  | fuel + 1, .anyChar :: p, s =>
    (match s with
     | [] => false
     | _ :: t => globMatchFuel fuel p t)
  | fuel + 1, .charClass negated items :: p, s =>
    (match s with
     | [] => false
     | c :: t => (classMatches items c != negated) && globMatchFuel fuel p t)
  | fuel + 1, .lit c :: p, s =>
    (match s with
     | [] => false
     | d :: t => c = d && globMatchFuel fuel p t)

/-- Model of `fnmatch.fnmatchcase(name, pat)`: whole-string glob match. -/
def fnmatchcase (name pat : String) : Bool :=
  let toks := compileGlob pat.toList
  globMatchFuel (toks.length + name.length + 1) toks name.toList

/-! ## Feed data model (`app.py` dataclasses `FeedRequest`, `FeedEntry`) -/

/-- Translation of the `FeedRequest` dataclass (`app.py` lines 60-72). -/
structure FeedRequest where
  feed_title : String
  source_url : String
  item_selector : String
  title_selector : String
  link_selector : String
  summary_selector : String
  max_items : Nat
  refresh_interval_minutes : Int
  fetch_mode : String
  filter_rules : String := ""
  exclude_filter_rules : String := ""
deriving Repr, DecidableEq

/-- Translation of the `FeedEntry` dataclass (`app.py` lines 75-80);
`published_at` is a timestamp in the `Int` time model. -/
structure FeedEntry where
  title : String
  link : String
  summary : String
  published_at : Int
deriving Repr, DecidableEq

/-- Python exceptions raised by the pipeline: `ValueError` (used for both
validation and extraction failures) and `RuntimeError`. -/
inductive AppError where
  | valueError (msg : String)
  | runtimeError (msg : String)
deriving Repr, DecidableEq

/-- The message carried by an exception (`str(exc)`). -/
def AppError.message : AppError → String
  | .valueError msg => msg
  | .runtimeError msg => msg

/-- The pattern padding of `entry_matches_filter_term` (`app.py` lines
889-893): prepend `*` unless the term starts with one, then append `*`
unless the result ends with one. -/
def codeGlobPattern (normalized_term : List Char) : List Char :=
  let p1 := if normalized_term.head? = some '*' then normalized_term else '*' :: normalized_term
  if p1.getLast? = some '*' then p1 else p1 ++ ['*']

/-- Translation of `entry_matches_filter_term` (`app.py` lines 885-895):
casefold both sides; a term containing `*` or `?` is glob-matched after
padding with `*` at unwildcarded ends, otherwise substring containment. -/
def entry_matches_filter_term (entry : FeedEntry) (term : String) : Bool :=
  let title := (pyLower entry.title).toList
  let normalized_term := (pyLower term).toList
  if normalized_term.any (fun c => c = '*' || c = '?') then
    let pattern := codeGlobPattern normalized_term
    globMatchFuel ((compileGlob pattern).length + title.length + 1) (compileGlob pattern) title
  else
    isSubstr normalized_term title

/-! ## Filter expression engine (`app.py` lines 877-1018) -/

/-- The filter rule AST (tuples `("TERM", s)` / `("AND", l, r)` /
`("OR", l, r)` in `app.py`). -/
inductive FilterAst where
  | term (s : String)
  | bAnd (l r : FilterAst)
  | bOr (l r : FilterAst)
deriving Repr, DecidableEq

/-- Tokens of `tokenize_filter_expression`. -/
inductive FilterToken where
  | lparen
  | rparen
  | opAnd
  | opOr
  | term (s : String)
deriving Repr, DecidableEq

/-- Case-insensitive keyword test: does `cs` start with `word` (given in
lowercase), with a word boundary after it?  (The boundary *before* the
keyword always holds at tokenizer match positions: they sit at the start
of the input or directly after whitespace, a parenthesis or a quote.) -/
def startsWithKeyword (word : List Char) (cs : List Char) : Bool :=
  (cs.take word.length).map Char.toLower = word &&
    (match cs.drop word.length with
     | [] => true
     | c :: _ => ¬ isWordChar c)

/-- Scan for a closing quote character; `none` when unclosed (then the
quoted alternative of the tokenizer regex fails and the bare-term
alternative takes over). -/
def scanToQuote (quote : Char) : List Char → Option (List Char × List Char)
  | [] => none
  | c :: rest =>
    if c = quote then some ([], rest)
    else match scanToQuote quote rest with
      | some (content, tail) => some (c :: content, tail)
      | none => none

/-- The `TERM` alternative of the tokenizer regex: the maximal non-empty
prefix of characters that are neither whitespace nor parentheses. -/
def bareTermChars (cs : List Char) : List Char :=
  cs.takeWhile (fun c => ¬ isPySpace c && c ≠ '(' && c ≠ ')')

/-- One step of `tokenize_filter_expression` (`app.py` lines 956-988):
after skipping whitespace, try in the regex alternation order `(`, `)`,
a quoted literal, the keywords `AND`/`OR` (case-insensitive, with word
boundary), then a bare term running to whitespace or a parenthesis.
Fuel decreases every step; each step consumes at least one character, so
`length + 1` fuel always suffices.  A remainder consisting only of
whitespace makes the regex fail, raising `ValueError` exactly as in the
source. -/
def tokenizeFuel : Nat → List Char → Except AppError (List FilterToken)
  | 0, _ => .error (.valueError "Invalid filter expression.")
  | _ + 1, [] => .ok []
  | fuel + 1, cs@(_ :: _) =>
    let rest := cs.dropWhile isPySpace
    match rest with
    | [] => .error (.valueError "Invalid filter expression.")
    | '(' :: tail => (tokenizeFuel fuel tail).map (fun toks => .lparen :: toks)
    | ')' :: tail => (tokenizeFuel fuel tail).map (fun toks => .rparen :: toks)
    | c :: tail =>
      if (c = Char.ofNat 34 ∨ c = Char.ofNat 39) ∧ (scanToQuote c tail).isSome then
        match scanToQuote c tail with
        | some (content, afterQuote) =>
          (tokenizeFuel fuel afterQuote).map (fun toks => .term (String.mk content) :: toks)
        | none => .error (.valueError "Invalid filter expression.")
      else if startsWithKeyword ['a', 'n', 'd'] (c :: tail) then
        (tokenizeFuel fuel ((c :: tail).drop 3)).map (fun toks => .opAnd :: toks)
      else if startsWithKeyword ['o', 'r'] (c :: tail) then
        (tokenizeFuel fuel ((c :: tail).drop 2)).map (fun toks => .opOr :: toks)
      else
        (tokenizeFuel fuel ((c :: tail).drop (bareTermChars (c :: tail)).length)).map
          (fun toks => .term (String.mk (bareTermChars (c :: tail))) :: toks)

/-- Translation of `tokenize_filter_expression` (`app.py` lines 956-988). -/
def tokenize_filter_expression (expression : String) : Except AppError (List FilterToken) :=
  tokenizeFuel (expression.toList.length + 1) expression.toList

/-- Does the rule line contain a parenthesis or a whole-word `AND`/`OR`?
Model of `re.search(r"\b(?:AND|OR)\b|[()]", expression, re.IGNORECASE)`
(`app.py` line 902), which decides whether the line is tokenized at all. -/
def hasBooleanSyntaxAux (prevIsWord : Bool) : List Char → Bool
  | [] => false
  | c :: rest =>
    c = '(' || c = ')' ||
      (¬ prevIsWord &&
        (startsWithKeyword ['a', 'n', 'd'] (c :: rest) ||
          startsWithKeyword ['o', 'r'] (c :: rest))) ||
      hasBooleanSyntaxAux (isWordChar c) rest

def has_boolean_syntax (expression : String) : Bool :=
  hasBooleanSyntaxAux false expression.toList

/-! `parse_primary` / `parse_and_expression` / `parse_or_expression` from
`parse_filter_expression` (`app.py` lines 905-953), as a functional
recursive-descent parser over the token list.  Fuel decreases on every
call; the true call depth is bounded by three calls per consumed token
plus a constant, so the fuel supplied by `parse_filter_expression`
(`3 * tokens + 12`) is never exhausted. -/

mutual

def parsePrimaryFuel : Nat → List FilterToken → Except AppError (FilterAst × List FilterToken)
  | 0, _ => .error (.valueError "Incomplete filter expression.")
  | _ + 1, [] => .error (.valueError "Incomplete filter expression.")
  | _ + 1, .term s :: rest => .ok (.term s, rest)
  | fuel + 1, .lparen :: rest =>
    match parseOrFuel fuel rest with
    | .error e => .error e
    | .ok (node, remaining) =>
      match remaining with
      | .rparen :: tail => .ok (node, tail)
      | [] => .error (.valueError "Incomplete filter expression.")
      | _ => .error (.valueError "Expected rparen in filter expression.")
  | _ + 1, _ => .error (.valueError "Expected a filter term or parenthesized group.")

/-- The `while current is AND` loop of `parse_and_expression`. -/
def parseAndLoopFuel : Nat → FilterAst → List FilterToken → Except AppError (FilterAst × List FilterToken)
  | 0, _, _ => .error (.valueError "Incomplete filter expression.")
  | fuel + 1, node, .opAnd :: rest =>
    match parsePrimaryFuel fuel rest with
    | .error e => .error e
    | .ok (rhs, remaining) => parseAndLoopFuel fuel (.bAnd node rhs) remaining
  | _ + 1, node, toks => .ok (node, toks)

def parseAndFuel : Nat → List FilterToken → Except AppError (FilterAst × List FilterToken)
  | 0, _ => .error (.valueError "Incomplete filter expression.")
  | fuel + 1, toks =>
    match parsePrimaryFuel fuel toks with
    | .error e => .error e
    | .ok (node, remaining) => parseAndLoopFuel fuel node remaining

/-- The `while current is OR` loop of `parse_or_expression`. -/
def parseOrLoopFuel : Nat → FilterAst → List FilterToken → Except AppError (FilterAst × List FilterToken)
  | 0, _, _ => .error (.valueError "Incomplete filter expression.")
  | fuel + 1, node, .opOr :: rest =>
    match parseAndFuel fuel rest with
    | .error e => .error e
    | .ok (rhs, remaining) => parseOrLoopFuel fuel (.bOr node rhs) remaining
  | _ + 1, node, toks => .ok (node, toks)

def parseOrFuel : Nat → List FilterToken → Except AppError (FilterAst × List FilterToken)
  | 0, _ => .error (.valueError "Incomplete filter expression.")
  | fuel + 1, toks =>
    match parseAndFuel fuel toks with
    | .error e => .error e
    | .ok (node, remaining) => parseOrLoopFuel fuel node remaining

end

/-- Translation of `parse_filter_expression` (`app.py` lines 898-953):
strip; reject empty rules; treat a line with no boolean syntax as one
bare term; otherwise tokenize, parse an OR-expression and reject
leftover tokens. -/
def parse_filter_expression (expression : String) : Except AppError FilterAst :=
  let normalized_expression := pyStrip expression
  if normalized_expression = "" then .error (.valueError "Filter expressions cannot be empty.")
  else if ¬ has_boolean_syntax normalized_expression then .ok (.term normalized_expression)
  else
    match tokenize_filter_expression normalized_expression with
    | .error e => .error e
    | .ok tokens =>
      match parseOrFuel (3 * tokens.length + 12) tokens with
      | .error e => .error e
      | .ok (tree, remaining) =>
        if remaining.isEmpty then .ok tree
        else .error (.valueError "Unexpected token in filter expression.")

/-- Translation of `parse_filter_rule_lines` (`app.py` lines 877-878). -/
def parse_filter_rule_lines (filter_rules : String) : List String :=
  ((splitOnChar '\n' filter_rules.toList).map (fun line => String.mk (stripChars line))).filter
    (fun line => line ≠ "")

/-- Translation of `parse_filter_rules` (`app.py` lines 881-882): parse
every non-blank line, propagating the first failure. -/
def parse_filter_rules (filter_rules : String) : Except AppError (List FilterAst) :=
  (parse_filter_rule_lines filter_rules).mapM parse_filter_expression

/-- Translation of `evaluate_filter_expression` (`app.py` lines 991-999). -/
def evaluate_filter_expression (tree : FilterAst) (entry : FeedEntry) : Bool :=
  match tree with
  | .term s => entry_matches_filter_term entry s
  | .bAnd l r => evaluate_filter_expression l entry && evaluate_filter_expression r entry
  | .bOr l r => evaluate_filter_expression l entry || evaluate_filter_expression r entry

/-- Translation of `entry_matches_any_filter_rule` (`app.py` lines 1002-1003). -/
def entry_matches_any_filter_rule (entry : FeedEntry) (parsed_rules : List FilterAst) : Bool :=
  parsed_rules.any (fun rule => evaluate_filter_expression rule entry)

/-- The per-entry predicate of `apply_entry_filters`: kept iff it matches
some include rule (when present) and no exclude rule (when present). -/
def entryPassesFilters (include_rules exclude_rules : List FilterAst) (entry : FeedEntry) : Bool :=
  (include_rules.isEmpty || entry_matches_any_filter_rule entry include_rules) &&
    (exclude_rules.isEmpty || ¬ entry_matches_any_filter_rule entry exclude_rules)

/-- Translation of `apply_entry_filters` (`app.py` lines 1006-1018). -/
def apply_entry_filters (entries : List FeedEntry) (include_rules exclude_rules : List FilterAst) : List FeedEntry :=
  if include_rules.isEmpty && exclude_rules.isEmpty then entries
  else entries.filter (entryPassesFilters include_rules exclude_rules)

deriving instance DecidableEq for Except

/-! ## DOM model

`extract_feed_entries` consumes a BeautifulSoup tree.  We model the tree
as a rose structure of element and text nodes.  The selector engine is
the injected external capability (spec section 2): it supports the type
selectors (`a`, `li`, ...) and class selectors (`.topic`) that the
translated code paths exercise; pseudo-class selectors (such as a bare
`:scope` handed to the engine rather than to the app's own
`select_node_with_scope` helpers) match no descendant.  As in soupsieve,
`select` searches proper descendants only.  Node identity (`is` in
Python) and node equality (`==`, which BeautifulSoup defines
structurally) are both modelled by structural equality `domBeq`; the
parent pointer of a BeautifulSoup node is modelled by looking the node up
inside the document tree (`findParentIn`). -/

inductive DomNode where
  | elem (tag : String) (attrs : List (String × String)) (children : List DomNode)
  | text (s : String)

mutual

/-- Structural equality of DOM nodes (model of BeautifulSoup `==`, which
compares name, attributes and contents). -/
def domBeq : DomNode → DomNode → Bool
  | .text a, .text b => a = b
  | .elem tag1 attrs1 children1, .elem tag2 attrs2 children2 =>
    tag1 = tag2 && attrs1 = attrs2 && domListBeq children1 children2
  | _, _ => false

def domListBeq : List DomNode → List DomNode → Bool
  | [], [] => true
  | a :: rest1, b :: rest2 => domBeq a b && domListBeq rest1 rest2
  | _, _ => false

end

mutual

/-- All proper descendants of a node, in document (pre-)order. -/
def nodeDescendants : DomNode → List DomNode
  | .text _ => []
  | .elem _ _ children => forestDescendants children

def forestDescendants : List DomNode → List DomNode
  | [] => []
  | n :: rest => n :: nodeDescendants n ++ forestDescendants rest

end

mutual

/-- The raw text pieces of a subtree, in document order. -/
def nodeTexts : DomNode → List String
  | .text s => [s]
  | .elem _ _ children => forestTexts children

def forestTexts : List DomNode → List String
  | [] => []
  | n :: rest => nodeTexts n ++ forestTexts rest

end

/-- Model of `node.get_text(" ", strip=True)`: strip every text piece,
drop the empty ones, join with a single space. -/
def getTextStrip (n : DomNode) : String :=
  String.mk (joinWith [' '] (((nodeTexts n).map (fun s => stripChars s.toList)).filter
    (fun piece => ¬ piece.isEmpty)))

/-- Model of `node.get("href")` etc.: attribute lookup on an element. -/
def nodeGetAttr (n : DomNode) (key : String) : Option String :=
  match n with
  | .text _ => none
  | .elem _ attrs _ =>
    match attrs.filter (fun kv => kv.fst = key) with
    | [] => none
    | kv :: _ => some kv.snd

/-- Model of `getattr(node, "name", None)`: the tag name of an element,
`none` for a text node. -/
def nodeName (n : DomNode) : Option String :=
  match n with
  | .text _ => none
  | .elem tag _ _ => some tag

/-- The `contents` list of a node. -/
def nodeChildren (n : DomNode) : List DomNode :=
  match n with
  | .text _ => []
  | .elem _ _ children => children

/-- The selector engine (external capability): does `selector` match the
node?  `.cls` matches by class token, a plain name matches by tag, a
pseudo-class selector matches nothing. -/
def selMatches (selector : String) (n : DomNode) : Bool :=
  match n with
  | .text _ => false
  | .elem tag attrs _ =>
    match selector.toList with
    | [] => false
    | ':' :: _ => false
    | '.' :: cls =>
      (match nodeGetAttr (.elem tag attrs []) "class" with
       | none => false
       | some classes => (splitOnChar ' ' classes.toList).any (fun tok => tok = cls))
    | _ => tag = selector

/-- Model of `node.select(selector)`: all matching proper descendants in
document order. -/
def nodeSelect (n : DomNode) (selector : String) : List DomNode :=
  (nodeDescendants n).filter (selMatches selector)

/-- Model of `node.select_one(selector)`. -/
def nodeSelectOne (n : DomNode) (selector : String) : Option DomNode :=
  (nodeSelect n selector).head?

/-- Model of the BeautifulSoup parent pointer: the first node within
`root` (in pre-order, `root` itself included) whose contents contain
`target`. -/
def findParentIn (root target : DomNode) : Option DomNode :=
  ((root :: nodeDescendants root).filter
    (fun p => (nodeChildren p).any (fun child => domBeq child target))).head?

/-- Translation of `select_node_with_scope` (`app.py` lines 771-775). -/
def select_node_with_scope (node : DomNode) (selector : String) : Option DomNode :=
  let normalized_selector := pyStrip selector
  if normalized_selector = ":scope" ∨ normalized_selector = "self" then some node
  else nodeSelectOne node selector

/-- Translation of `select_nodes_with_scope` (`app.py` lines 778-782). -/
def select_nodes_with_scope (node : DomNode) (selector : String) : List DomNode :=
  let normalized_selector := pyStrip selector
  if normalized_selector = ":scope" ∨ normalized_selector = "self" then [node]
  else nodeSelect node selector

/-! ## Entry extraction (`app.py` lines 713-1137) -/

/-- Translation of `normalize_topic_link` (`app.py` lines 1128-1137):
resolve the href against the source URL, reject non-http(s) schemes and
off-host targets by raising `ValueError`. -/
def normalize_topic_link (source_url href : String) : Except AppError String :=
  let joined := urljoin_min source_url href
  let parsed_source := urlparse_min source_url
  let parsed_joined := urlparse_min joined
  if ¬ (parsed_joined.scheme = "http" ∨ parsed_joined.scheme = "https") then
    .error (.valueError "Topic links must resolve to http or https URLs.")
  else if parsed_joined.netloc ≠ parsed_source.netloc then
    .error (.valueError "Off-site topic links are blocked by default.")
  else .ok joined

/-- Translation of `build_entry_from_nodes` (`app.py` lines 1093-1125).
`.ok none` models the `return None` per-candidate skips; the `ValueError`
raised by `normalize_topic_link` propagates.  `title_text` is the
optional pre-computed title of the link-expansion pass (Python
`title_text or title_node.get_text(...)`: an empty string also falls
back to the node text). -/
def build_entry_from_nodes (container_node : DomNode) (title_node link_node : Option DomNode)
    (title_text : Option String) (config : FeedRequest) (now : Int) :
    Except AppError (Option FeedEntry) :=
  match title_node, link_node with
  | none, _ => .ok none
  | _, none => .ok none
  | some tnode, some lnode =>
    match nodeGetAttr lnode "href" with
    | none => .ok none
    | some href =>
      if href = "" then .ok none
      else
        match normalize_topic_link config.source_url href with
        | .error e => .error e
        | .ok absolute_link =>
          let title :=
            match title_text with
            | some t => if t = "" then getTextStrip tnode else t
            | none => getTextStrip tnode
          if title = "" then .ok none
          else
            let summary :=
              if config.summary_selector ≠ "" then
                match select_node_with_scope container_node config.summary_selector with
                | some summary_node => getTextStrip summary_node
                | none => ""
              else ""
            .ok (some { title := title, link := absolute_link, summary := summary, published_at := now })

/-- The loop body of `extract_entries_from_item_nodes` (`app.py` lines
798-816), accumulating already collected entries: build a candidate from
each item node, skip `None` results, apply the inline include/exclude
filters, and stop once `max_items` entries are collected. -/
def goItemNodes (config : FeedRequest) (now : Int)
    (parsed_filter_rules parsed_exclude_filter_rules : List FilterAst) :
    List DomNode → List FeedEntry → Except AppError (List FeedEntry)
  | [], acc => .ok acc
  | node :: rest, acc =>
    match build_entry_from_nodes node (select_node_with_scope node config.title_selector)
        (select_node_with_scope node config.link_selector) none config now with
    | .error e => .error e
    | .ok none => goItemNodes config now parsed_filter_rules parsed_exclude_filter_rules rest acc
    | .ok (some entry) =>
      if ¬ parsed_filter_rules.isEmpty ∧ ¬ entry_matches_any_filter_rule entry parsed_filter_rules then
        goItemNodes config now parsed_filter_rules parsed_exclude_filter_rules rest acc
      else if ¬ parsed_exclude_filter_rules.isEmpty ∧ entry_matches_any_filter_rule entry parsed_exclude_filter_rules then
        goItemNodes config now parsed_filter_rules parsed_exclude_filter_rules rest acc
      else
        let acc2 := acc ++ [entry]
        if config.max_items ≤ acc2.length then .ok acc2
        else goItemNodes config now parsed_filter_rules parsed_exclude_filter_rules rest acc2

/-- Translation of `extract_entries_from_item_nodes` (`app.py` lines
785-817); the progress sink is purely observational and omitted. -/
def extract_entries_from_item_nodes (nodes : List DomNode) (config : FeedRequest) (now : Int)
    (parsed_filter_rules parsed_exclude_filter_rules : List FilterAst) :
    Except AppError (List FeedEntry) :=
  goItemNodes config now parsed_filter_rules parsed_exclude_filter_rules nodes []

/-- Translation of `should_use_container_link_fallback` (`app.py` lines
820-826). -/
def should_use_container_link_fallback (nodes : List DomNode) (entries : List FeedEntry)
    (config : FeedRequest) : Bool :=
  if 1 < entries.length then false
  else nodes.any (fun node => 1 < (select_nodes_with_scope node config.link_selector).length)

/-- Translation of `resolve_repeated_link_title_node` (`app.py` lines
1021-1031): the title node for an expanded link is the link itself when
the title selector is `:scope`/`self` or equal to the link selector,
otherwise the first title-selector match under the link, falling back to
the link. -/
def resolve_repeated_link_title_node (link_node : DomNode) (config : FeedRequest) : DomNode :=
  let normalized_title_selector := pyStrip config.title_selector
  let normalized_link_selector := pyStrip config.link_selector
  if normalized_title_selector = ":scope" ∨ normalized_title_selector = "self" then link_node
  else if normalized_title_selector = normalized_link_selector then link_node
  else
    match select_node_with_scope link_node config.title_selector with
    | some title_node => title_node
    | none => link_node

/-- Translation of `extract_inline_title_text` (`app.py` lines
1056-1090): assemble a title for an anchor from its siblings, walking
backward then forward inside the anchor's parent, stopping at `<br>` or
another `<a>`, inserting the anchor's own text at its position, and
collapsing whitespace.  The Python code reads `link_node.parent`; the
parent pointer is modelled by locating the anchor's parent inside `root`
(the document), and the `container_node` parameter is kept (unused, as in
the source). -/
def extract_inline_title_text (root : DomNode) (container_node link_node : DomNode) : String :=
  let _ := container_node
  let anchor_text := getTextStrip link_node
  match findParentIn root link_node with
  | none => anchor_text
  | some parent =>
    let siblings := nodeChildren parent
    match siblings.findIdx? (fun sibling => domBeq sibling link_node) with
    | none => anchor_text
    | some link_index =>
      let stopsWalk := fun sibling => nodeName sibling = some "br" ∨ nodeName sibling = some "a"
      let textOf := fun sibling =>
        match sibling with
        | DomNode.text s => String.mk (stripChars s.toList)
        | other => getTextStrip other
      let before :=
        ((((siblings.take link_index).reverse.takeWhile (fun s => ¬ stopsWalk s)).map textOf).filter
          (fun t => t ≠ "")).reverse
      let after :=
        (((siblings.drop (link_index + 1)).takeWhile (fun s => ¬ stopsWalk s)).map textOf).filter
          (fun t => t ≠ "")
      let title_parts := before ++ (if anchor_text ≠ "" then [anchor_text] else []) ++ after
      let joined := collapseSpaces (String.mk (joinWith [' '] (title_parts.map String.toList)))
      if joined = "" then anchor_text else joined

/-- Translation of `extract_repeated_link_title_text` (`app.py` lines
1034-1053): only used when the title selector equals the link selector or
is `:scope`/`self`; prefer the distinct title node's text, then the
inline sibling text, else `none` (Python `None`). -/
def extract_repeated_link_title_text (root : DomNode) (container_node link_node title_node : DomNode)
    (config : FeedRequest) : Option String :=
  let normalized_title_selector := pyStrip config.title_selector
  let normalized_link_selector := pyStrip config.link_selector
  if ¬ (normalized_title_selector = normalized_link_selector ∨
      normalized_title_selector = ":scope" ∨ normalized_title_selector = "self") then
    none
  else
    let from_title_node :=
      if ¬ domBeq title_node link_node then
        let title_text := getTextStrip title_node
        if title_text ≠ "" then some title_text else none
      else none
    match from_title_node with
    | some t => some t
    | none =>
      let contextual_title := extract_inline_title_text root container_node link_node
      if contextual_title ≠ "" then some contextual_title else none

/-- The inner loop of `extract_entries_from_link_collections` (`app.py`
lines 845-873) over the link nodes of one item node.  Returns the updated
seen-link set, the accumulated entries, and whether `max_items` was
reached (Python `return entries` from inside the nested loop). -/
def goLinkNodes (root : DomNode) (config : FeedRequest) (now : Int)
    (parsed_filter_rules parsed_exclude_filter_rules : List FilterAst) (node : DomNode) :
    List DomNode → List String → List FeedEntry →
    Except AppError (List String × List FeedEntry × Bool)
  | [], seen_links, acc => .ok (seen_links, acc, false)
  | link_node :: rest, seen_links, acc =>
    let title_node := resolve_repeated_link_title_node link_node config
    let title_text := extract_repeated_link_title_text root node link_node title_node config
    match build_entry_from_nodes node (some title_node) (some link_node) title_text config now with
    | .error e => .error e
    | .ok none =>
      goLinkNodes root config now parsed_filter_rules parsed_exclude_filter_rules node rest seen_links acc
    | .ok (some entry) =>
      if entry.link ∈ seen_links then
        goLinkNodes root config now parsed_filter_rules parsed_exclude_filter_rules node rest seen_links acc
      else if ¬ parsed_filter_rules.isEmpty ∧ ¬ entry_matches_any_filter_rule entry parsed_filter_rules then
        goLinkNodes root config now parsed_filter_rules parsed_exclude_filter_rules node rest seen_links acc
      else if ¬ parsed_exclude_filter_rules.isEmpty ∧ entry_matches_any_filter_rule entry parsed_exclude_filter_rules then
        goLinkNodes root config now parsed_filter_rules parsed_exclude_filter_rules node rest seen_links acc
      else
        let seen2 := entry.link :: seen_links
        let acc2 := acc ++ [entry]
        if config.max_items ≤ acc2.length then .ok (seen2, acc2, true)
        else goLinkNodes root config now parsed_filter_rules parsed_exclude_filter_rules node rest seen2 acc2

/-- The outer loop of `extract_entries_from_link_collections` over the
item nodes paired with their link-node groups. -/
def goLinkGroups (root : DomNode) (config : FeedRequest) (now : Int)
    (parsed_filter_rules parsed_exclude_filter_rules : List FilterAst) :
    List (DomNode × List DomNode) → List String → List FeedEntry →
    Except AppError (List FeedEntry)
  | [], _, acc => .ok acc
  | (node, link_nodes) :: rest, seen_links, acc =>
    match goLinkNodes root config now parsed_filter_rules parsed_exclude_filter_rules node
        link_nodes seen_links acc with
    | .error e => .error e
    | .ok (_, acc2, true) => .ok acc2
    | .ok (seen2, acc2, false) =>
      goLinkGroups root config now parsed_filter_rules parsed_exclude_filter_rules rest seen2 acc2

/-- Translation of `extract_entries_from_link_collections` (`app.py`
lines 829-874): flatten every link node under every item node, dedupe by
resolved link, filter inline, cap at `max_items`.  `root` models the
document that the parent pointers of the link nodes live in. -/
def extract_entries_from_link_collections (root : DomNode) (nodes : List DomNode)
    (config : FeedRequest) (now : Int)
    (parsed_filter_rules parsed_exclude_filter_rules : List FilterAst) :
    Except AppError (List FeedEntry) :=
  let link_groups := nodes.map (fun node => (node, select_nodes_with_scope node config.link_selector))
  goLinkGroups root config now parsed_filter_rules parsed_exclude_filter_rules link_groups [] []

/-- Translation of `extract_feed_entries` (`app.py` lines 718-768).
The network fetch is the first pipeline step (line 729); its outcome is
the `fetched` argument (`.error` models a fetch failure).  Note the
source order: the fetch and the item-selector match happen *before*
`parse_filter_rules` is called (lines 729-739).  Item nodes are resolved
with a plain `soup.select(config.item_selector)` (line 733), not with
`select_nodes_with_scope`. -/
def extract_feed_entries (config : FeedRequest) (fetched : Except AppError DomNode) (now : Int) :
    Except AppError (List FeedEntry) :=
  match fetched with
  | .error e => .error e
  | .ok soup =>
    let nodes := nodeSelect soup config.item_selector
    if nodes.isEmpty then .error (.valueError "No topic nodes matched the item selector.")
    else
      match parse_filter_rules config.filter_rules with
      | .error e => .error e
      | .ok parsed_filter_rules =>
        match parse_filter_rules config.exclude_filter_rules with
        | .error e => .error e
        | .ok parsed_exclude_filter_rules =>
          match extract_entries_from_item_nodes nodes config now parsed_filter_rules
              parsed_exclude_filter_rules with
          | .error e => .error e
          | .ok primary_entries =>
            match
              ((if should_use_container_link_fallback nodes primary_entries config then
                match extract_entries_from_link_collections soup nodes config now
                    parsed_filter_rules parsed_exclude_filter_rules with
                | .error e => .error e
                | .ok container_entries =>
                  .ok (if primary_entries.length < container_entries.length then container_entries
                    else primary_entries)
              else .ok primary_entries) : Except AppError (List FeedEntry)) with
            | .error e => .error e
            | .ok entries =>
              if entries.isEmpty then
                .error (.valueError "Matched nodes did not contain usable titles and links.")
              else
                .ok ((apply_entry_filters entries parsed_filter_rules
                  parsed_exclude_filter_rules).take config.max_items)

/-! ## Profile store and refresh scheduling (`app.py` lines 83-105, 1390-1643)

A profile is one row of the `profiles` table; its stored feed items are
the `feed_items` rows with its profile id.  Timestamps are `Option Int`
(the empty text `''` is `none`); `utcnow_text()` becomes the `now`
argument of each operation. -/

/-- Translation of the `StoredProfile` dataclass (`app.py` lines 83-105). -/
structure StoredProfile where
  id : Nat
  feed_token : String
  feed_title : String
  source_url : String
  item_selector : String
  title_selector : String
  link_selector : String
  summary_selector : String
  filter_rules : String
  exclude_filter_rules : String
  max_items : Nat
  refresh_interval_minutes : Int
  fetch_mode : String
  active : Bool
  last_status : String
  last_error : String
  last_refreshed_at : Option Int
  refresh_anchor_at : Option Int
  created_at : Option Int
  updated_at : Option Int
deriving Repr, DecidableEq

/-- One row of the `feed_items` table (for a fixed profile). -/
structure FeedItem where
  title : String
  link : String
  summary : String
  discovered_at : Int
deriving Repr, DecidableEq

/-- The profile row produced by `create_profile` (`app.py` lines
1390-1425): `active=1`, `last_status='idle'`, empty error and refresh
timestamps, `created_at = updated_at = now`. -/
def create_profile_row (config : FeedRequest) (idv : Nat) (token : String) (now : Int) :
    StoredProfile :=
  { id := idv
    feed_token := token
    feed_title := config.feed_title
    source_url := config.source_url
    item_selector := config.item_selector
    title_selector := config.title_selector
    link_selector := config.link_selector
    summary_selector := config.summary_selector
    filter_rules := config.filter_rules
    exclude_filter_rules := config.exclude_filter_rules
    max_items := config.max_items
    refresh_interval_minutes := config.refresh_interval_minutes
    fetch_mode := config.fetch_mode
    active := true
    last_status := "idle"
    last_error := ""
    last_refreshed_at := none
    refresh_anchor_at := none
    created_at := some now
    updated_at := some now }

/-- Translation of `should_refresh` (`app.py` lines 1580-1592): not due
when inactive or when the interval is zero; otherwise due iff `now` has
reached the maximum of the non-empty timestamps among
`last_refreshed_at` / `refresh_anchor_at` (falling back to `created_at`
when both are empty, never due when that is empty too) plus the
interval. -/
def should_refresh (profile : StoredProfile) (now : Int) : Bool :=
  if ¬ profile.active then false
  else if profile.refresh_interval_minutes = 0 then false
  else
    let base_candidates := [profile.last_refreshed_at, profile.refresh_anchor_at].filterMap id
    let base_candidates :=
      if base_candidates.isEmpty then
        match profile.created_at with
        | some created => [created]
        | none => []
      else base_candidates
    match base_candidates.max? with
    | none => false
    | some due_base => decide (due_base + profile.refresh_interval_minutes ≤ now)

/-- Translation of `set_profile_active` (`app.py` lines 1494-1524), as
the effect of the two `UPDATE` statements on the profile row.  Enabling
sets `active=1, last_status='idle', last_error=''` and stamps
`refresh_anchor_at` and `updated_at`; disabling sets
`active=0, last_status='disabled', last_error=''` and stamps
`updated_at` only. -/
def set_profile_active (profile : StoredProfile) (active : Bool) (now : Int) : StoredProfile :=
  if active then
    { profile with
        active := true
        last_status := "idle"
        last_error := ""
        refresh_anchor_at := some now
        updated_at := some now }
  else
    { profile with
        active := false
        last_status := "disabled"
        last_error := ""
        updated_at := some now }

/-- Translation of the `UPDATE` in `update_profile` (`app.py` lines
1428-1463): overwrite the configuration columns, reset
`last_status='idle'` and `last_error=''`, stamp `updated_at`; the
`feed_items` table is not touched. -/
def update_profile (state : StoredProfile × List FeedItem) (config : FeedRequest) (now : Int) :
    StoredProfile × List FeedItem :=
  ({ state.fst with
      feed_title := config.feed_title
      source_url := config.source_url
      item_selector := config.item_selector
      title_selector := config.title_selector
      link_selector := config.link_selector
      summary_selector := config.summary_selector
      filter_rules := config.filter_rules
      exclude_filter_rules := config.exclude_filter_rules
      max_items := config.max_items
      refresh_interval_minutes := config.refresh_interval_minutes
      fetch_mode := config.fetch_mode
      last_status := "idle"
      last_error := ""
      updated_at := some now },
    state.snd)

/-- Translation of the `INSERT ... ON CONFLICT(profile_id, link) DO
UPDATE SET title = excluded.title, summary = excluded.summary` upsert of
`refresh_profile` (`app.py` lines 1620-1634): an existing row with the
same link keeps its `discovered_at` and gets the new title and summary,
otherwise a new row is appended. -/
def upsert_feed_item (items : List FeedItem) (entry : FeedEntry) : List FeedItem :=
  if items.any (fun item => item.link = entry.link) then
    items.map (fun item =>
      if item.link = entry.link then
        { item with title := entry.title, summary := entry.summary }
      else item)
  else
    items ++ [{ title := entry.title, link := entry.link, summary := entry.summary,
                discovered_at := entry.published_at }]

/-- Translation of `refresh_profile` (`app.py` lines 1595-1643) for an
existing profile, as a state transformer on the profile row and its
stored items.  `extraction` is the outcome of
`extract_feed_entries(profile.to_feed_request())`; `now` is captured
before the extraction runs (line 1602).  A disabled profile raises
`RuntimeError("Feed is disabled.")` before any state change.  On an
extraction failure the profile is stamped
`last_status='error', last_error=str(exc)`,
`last_refreshed_at = refresh_anchor_at = updated_at = now`, the items are
not written, and the error is re-raised; on success every entry is
upserted and the profile is stamped `last_status='ok', last_error=''`
with the same timestamps. -/
def refresh_profile (profile : StoredProfile) (items : List FeedItem)
    (extraction : Except AppError (List FeedEntry)) (now : Int) :
    (StoredProfile × List FeedItem) × Except AppError Unit :=
  if ¬ profile.active then
    ((profile, items), .error (.runtimeError "Feed is disabled."))
  else
    match extraction with
    | .error e =>
      (({ profile with
            last_status := "error"
            last_error := e.message
            last_refreshed_at := some now
            refresh_anchor_at := some now
            updated_at := some now },
        items),
       .error (.runtimeError e.message))
    | .ok entries =>
      (({ profile with
            last_status := "ok"
            last_error := ""
            last_refreshed_at := some now
            refresh_anchor_at := some now
            updated_at := some now },
        entries.foldl upsert_feed_item items),
       .ok ())

/-! ## Spec-side companion definitions (for refinement comparisons) -/

/-- Modelled from the spec: the due-time base of spec section 4.4 /
claim C4, "max of the non-empty values among last_refreshed_at and
refresh_anchor_at, falling back to created_at when both are empty". -/
def spec_due_base (profile : StoredProfile) : Option Int :=
  match profile.last_refreshed_at, profile.refresh_anchor_at with
  | none, none => profile.created_at
  | some a, none => some a
  | none, some b => some b
  | some a, some b => some (max a b)

/-- Modelled from the spec: term evaluation of spec section 4.3 — a term
containing `*` or `?` is padded with `*` at the start and end when not
already wildcarded there and glob-matched case-insensitively; any other
term is a case-insensitive substring test. -/
def spec_term_matches (entry : FeedEntry) (term : String) : Bool :=
  let title := (pyLower entry.title).toList
  let t := (pyLower term).toList
  if t.any (fun c => c = '*' || c = '?') then
    let pattern :=
      (if t.head? = some '*' then [] else ['*']) ++ t ++
        (if t.getLast? = some '*' then [] else ['*'])
    globMatchFuel ((compileGlob pattern).length + title.length + 1) (compileGlob pattern) title
  else
    isSubstr t title

/-! ## Concrete fixtures used by witnesses and counterexamples -/

/-- A forum topic row: `<article class="topic"><a href=...>title</a></article>`. -/
def demoTopic (href title : String) : DomNode :=
  .elem "article" [("class", "topic")] [.elem "a" [("href", href)] [.text title]]

/-- A small topic-listing document. -/
def demoDoc : DomNode :=
  .elem "[document]" [] [.elem "html" [] [.elem "body" [] [
    demoTopic "/forums/topic/1" "Product Alpha Premium Edition",
    demoTopic "/forums/topic/2" "Toolkit build-21 candidate",
    demoTopic "/forums/topic/3" "Generic baseline package"]]]

/-- A baseline extraction configuration (the shape used throughout the
repository's tests). -/
def demoConfig : FeedRequest :=
  { feed_title := "Forum Feed"
    source_url := "https://example.com/forum"
    item_selector := ".topic"
    title_selector := "a"
    link_selector := "a"
    summary_selector := ""
    max_items := 10
    refresh_interval_minutes := 60
    fetch_mode := "http"
    filter_rules := ""
    exclude_filter_rules := "" }

/-- `demoConfig` with a malformed include rule line. -/
def demoConfigBadRule : FeedRequest :=
  { demoConfig with filter_rules := "(alpha OR premium" }

/-- `demoConfig` with the item selector `self`. -/
def demoConfigSelfItems : FeedRequest :=
  { demoConfig with item_selector := "self" }

/-- A fetch failure, as raised by `fetch_html_http` (`app.py` line 1178). -/
def demoFetchError : AppError :=
  .valueError "Upstream connection error: connection refused"

/-- A document whose two item nodes link to the same topic. -/
def demoDupDoc : DomNode :=
  .elem "[document]" [] [.elem "html" [] [.elem "body" [] [
    demoTopic "/forums/topic/same" "First Mention",
    demoTopic "/forums/topic/same" "Second Mention"]]]

/-- The entries the primary pass extracts from `demoDupDoc`. -/
def demoDupEntries : List FeedEntry :=
  [{ title := "First Mention", link := "https://example.com/forums/topic/same",
     summary := "", published_at := 2 },
   { title := "Second Mention", link := "https://example.com/forums/topic/same",
     summary := "", published_at := 2 }]

/-- A document with one `<p>` container holding three topic anchors
(the shape that activates the link-expansion fallback). -/
def demoFallbackDoc : DomNode :=
  .elem "[document]" [] [.elem "html" [] [.elem "body" [] [
    .elem "div" [("class", "banger-container")] [
      .elem "p" [] [
        .elem "a" [("href", "/forums/topic/alpha")] [.text "Alpha Topic"],
        .elem "br" [] [],
        .text " Bundle Release Candidate - ",
        .elem "a" [("href", "/forums/topic/beta")] [.text "[Premium Tier & Stable Build]"],
        .elem "br" [] [],
        .elem "a" [("href", "/forums/topic/gamma")] [.text "Gamma Topic"]]]]]]

/-- `demoConfig` targeting the `<p>` containers of `demoFallbackDoc`. -/
def demoConfigFallback : FeedRequest :=
  { demoConfig with item_selector := "p" }

/-- The single entry the primary pass extracts from `demoFallbackDoc`. -/
def demoPrimaryEntries : List FeedEntry :=
  [{ title := "Alpha Topic", link := "https://example.com/forums/topic/alpha",
     summary := "", published_at := 3 }]

/-- The three entries the link-expansion pass extracts from
`demoFallbackDoc`. -/
def demoFallbackEntries : List FeedEntry :=
  [{ title := "Alpha Topic", link := "https://example.com/forums/topic/alpha",
     summary := "", published_at := 3 },
   { title := "Bundle Release Candidate - [Premium Tier & Stable Build]",
     link := "https://example.com/forums/topic/beta", summary := "", published_at := 3 },
   { title := "Gamma Topic", link := "https://example.com/forums/topic/gamma",
     summary := "", published_at := 3 }]

/-- A stored profile in a representative state. -/
def demoProfile : StoredProfile :=
  { id := 1
    feed_token := "token-1"
    feed_title := "Forum Feed"
    source_url := "https://example.com/forum"
    item_selector := ".topic"
    title_selector := "a"
    link_selector := "a"
    summary_selector := ""
    filter_rules := ""
    exclude_filter_rules := ""
    max_items := 10
    refresh_interval_minutes := 60
    fetch_mode := "http"
    active := true
    last_status := "ok"
    last_error := ""
    last_refreshed_at := some 40
    refresh_anchor_at := some 30
    created_at := some 0
    updated_at := some 40 }

/-- A stored feed item of `demoProfile`. -/
def demoItems : List FeedItem :=
  [{ title := "Topic A", link := "https://example.com/forum/topic-a",
     summary := "Summary A", discovered_at := 10 }]

/-! ## Supporting lemmas -/

/-- `should_refresh` computes exactly the due-time rule of the spec:
active, non-zero interval, and `now` past `spec_due_base + interval`. -/
theorem should_refresh_iff (p : StoredProfile) (now : Int) :
    should_refresh p now = true ↔
      (p.active = true ∧ p.refresh_interval_minutes ≠ 0 ∧
        ∃ b, spec_due_base p = some b ∧ b + p.refresh_interval_minutes ≤ now) := by
  unfold should_refresh spec_due_base
  rcases hl : p.last_refreshed_at with _ | a <;>
    rcases hr : p.refresh_anchor_at with _ | b <;>
      rcases hc : p.created_at with _ | c <;>
        by_cases ha : p.active = true <;>
          by_cases hz : p.refresh_interval_minutes = 0 <;>
            simp [ha, hz, List.max?]

/-! ## Claim theorems -/

/-- Claim C3: when `refresh_profile` runs on an active profile and the
extraction fails, the stored feed items are left exactly unchanged, the
profile is stamped `last_status='error'` with the failure message in
`last_error`, and both `last_refreshed_at` and `refresh_anchor_at` (and
`updated_at`) are set to the current time; the failure is re-raised. -/
theorem claim_C3 (p : StoredProfile) (items : List FeedItem) (e : AppError) (now : Int)
    (hactive : p.active = true) :
    refresh_profile p items (.error e) now =
      (({ p with
            last_status := "error"
            last_error := e.message
            last_refreshed_at := some now
            refresh_anchor_at := some now
            updated_at := some now },
        items),
       .error (.runtimeError e.message)) := by
  simp [refresh_profile, hactive]

theorem claim_C3_witness :
    demoProfile.active = true ∧
      refresh_profile demoProfile demoItems
          (.error (.valueError "No topic nodes matched the item selector.")) 99 =
        (({ demoProfile with
              last_status := "error"
              last_error := "No topic nodes matched the item selector."
              last_refreshed_at := some 99
              refresh_anchor_at := some 99
              updated_at := some 99 },
          demoItems),
         .error (.runtimeError "No topic nodes matched the item selector.")) :=
  ⟨by decide,
   claim_C3 demoProfile demoItems (.valueError "No topic nodes matched the item selector.") 99
     (by decide)⟩

/-- Claim C4: `should_refresh` is true iff the profile is active, the
interval is positive, and `now` has reached the maximum of the non-empty
timestamps among `last_refreshed_at`/`refresh_anchor_at` (falling back to
`created_at` when both are empty) plus the interval; it is false when the
interval is zero regardless of elapsed time, false immediately for a
freshly created profile, and false forever when all three timestamps are
empty.  (`0 ≤ refresh_interval_minutes` is guaranteed upstream by
`parse_refresh_interval`, which rejects values outside `0..1440`.) -/
theorem claim_C4 :
    (∀ (p : StoredProfile) (now : Int), 0 ≤ p.refresh_interval_minutes →
      (should_refresh p now = true ↔
        (p.active = true ∧ 0 < p.refresh_interval_minutes ∧
          ∃ b, spec_due_base p = some b ∧ b + p.refresh_interval_minutes ≤ now))) ∧
    (∀ (p : StoredProfile) (now : Int), p.refresh_interval_minutes = 0 →
      should_refresh p now = false) ∧
    (∀ (config : FeedRequest) (idv : Nat) (token : String) (now : Int),
      0 ≤ config.refresh_interval_minutes →
      should_refresh (create_profile_row config idv token now) now = false) ∧
    (∀ (p : StoredProfile) (now : Int),
      p.last_refreshed_at = none → p.refresh_anchor_at = none → p.created_at = none →
      should_refresh p now = false) := by
  refine ⟨?_, ?_, ?_, ?_⟩
  · intro p now h0
    rw [should_refresh_iff]
    constructor
    · rintro ⟨ha, hz, b, hb, hle⟩
      exact ⟨ha, by omega, b, hb, hle⟩
    · rintro ⟨ha, hz, b, hb, hle⟩
      exact ⟨ha, by omega, b, hb, hle⟩
  · intro p now hz
    simp [should_refresh, hz]
  · intro config idv token now h0
    by_cases hz : config.refresh_interval_minutes = 0
    · simp [should_refresh, create_profile_row, hz]
    · have h1 : should_refresh (create_profile_row config idv token now) now = true ↔ _ :=
        should_refresh_iff (create_profile_row config idv token now) now
      simp only [create_profile_row, spec_due_base] at h1
      rcases hres : should_refresh (create_profile_row config idv token now) now
      · rfl
      · exfalso
        rcases (h1.mp hres) with ⟨-, -, b, hb, hle⟩
        simp at hb
        omega
  · intro p now hl hr hc
    rcases hres : should_refresh p now
    · rfl
    · exfalso
      rcases (should_refresh_iff p now).mp hres with ⟨-, -, b, hb, -⟩
      simp [spec_due_base, hl, hr, hc] at hb

theorem claim_C4_witness :
    (0 : Int) ≤ demoProfile.refresh_interval_minutes ∧
      should_refresh demoProfile 100 = true :=
  ⟨by decide,
   ((claim_C4.1 demoProfile 100 (by decide)).mpr
     ⟨by decide, by decide, 40, by decide, by decide⟩)⟩

/-- Claim C10: `update_profile` overwrites exactly the configuration
columns, resets `last_status` to `'idle'` and `last_error` to the empty
string (and stamps `updated_at`), while leaving `feed_token`, `active`,
`last_refreshed_at`, `refresh_anchor_at`, `created_at` and the stored
feed items unchanged — so editing a profile in the error state clears its
error without altering its refresh schedule or stored items. -/
theorem claim_C10 (p : StoredProfile) (items : List FeedItem) (config : FeedRequest) (now : Int) :
    (update_profile (p, items) config now).snd = items ∧
    (update_profile (p, items) config now).fst.feed_title = config.feed_title ∧
    (update_profile (p, items) config now).fst.source_url = config.source_url ∧
    (update_profile (p, items) config now).fst.item_selector = config.item_selector ∧
    (update_profile (p, items) config now).fst.title_selector = config.title_selector ∧
    (update_profile (p, items) config now).fst.link_selector = config.link_selector ∧
    (update_profile (p, items) config now).fst.summary_selector = config.summary_selector ∧
    (update_profile (p, items) config now).fst.filter_rules = config.filter_rules ∧
    (update_profile (p, items) config now).fst.exclude_filter_rules = config.exclude_filter_rules ∧
    (update_profile (p, items) config now).fst.max_items = config.max_items ∧
    (update_profile (p, items) config now).fst.refresh_interval_minutes = config.refresh_interval_minutes ∧
    (update_profile (p, items) config now).fst.fetch_mode = config.fetch_mode ∧
    (update_profile (p, items) config now).fst.last_status = "idle" ∧
    (update_profile (p, items) config now).fst.last_error = "" ∧
    (update_profile (p, items) config now).fst.feed_token = p.feed_token ∧
    (update_profile (p, items) config now).fst.active = p.active ∧
    (update_profile (p, items) config now).fst.last_refreshed_at = p.last_refreshed_at ∧
    (update_profile (p, items) config now).fst.refresh_anchor_at = p.refresh_anchor_at ∧
    (update_profile (p, items) config now).fst.created_at = p.created_at ∧
    (update_profile (p, items) config now).fst.updated_at = some now := by
  simp [update_profile]

/-- Claim C9 counterexample: disabling a profile does touch one of the
profile's timestamps — the `UPDATE` of `set_profile_active` stamps
`updated_at` to now (`app.py` line 1514), so "without touching the
profile's timestamps" is false as stated. -/
theorem claim_C9_counterexample :
    (set_profile_active demoProfile false 55).active = false ∧
    (set_profile_active demoProfile false 55).last_status = "disabled" ∧
    (set_profile_active demoProfile false 55).last_error = "" ∧
    (set_profile_active demoProfile false 55).updated_at ≠ demoProfile.updated_at := by
  decide

/-- Claim C9 (amended): disabling sets `active=false`,
`status='disabled'`, clears `last_error` and stamps `updated_at`, leaving
the scheduling timestamps (`last_refreshed_at`, `refresh_anchor_at`,
`created_at`) unchanged; enabling sets `active=true`, `status='idle'`,
clears `last_error`, resets `refresh_anchor_at` to now (stamping
`updated_at` as well), so that immediately after enabling
`should_refresh` is false and the next due time is
`now + refresh_interval_minutes`. -/
theorem claim_C9 :
    (∀ (p : StoredProfile) (now : Int),
      set_profile_active p false now =
        { p with active := false, last_status := "disabled", last_error := "",
                 updated_at := some now }) ∧
    (∀ (p : StoredProfile) (now : Int),
      set_profile_active p true now =
        { p with active := true, last_status := "idle", last_error := "",
                 refresh_anchor_at := some now, updated_at := some now }) ∧
    (∀ (p : StoredProfile) (now t : Int), 0 ≤ p.refresh_interval_minutes →
      (∀ v, p.last_refreshed_at = some v → v ≤ now) →
      (should_refresh (set_profile_active p true now) t = true ↔
        (0 < p.refresh_interval_minutes ∧ now + p.refresh_interval_minutes ≤ t))) := by
  refine ⟨fun p now => by simp [set_profile_active], fun p now => by simp [set_profile_active], ?_⟩
  intro p now t h0 hpast
  rw [should_refresh_iff]
  rcases hl : p.last_refreshed_at with _ | v
  · simp [set_profile_active, spec_due_base, hl]
    omega
  · have hv : v ≤ now := hpast v hl
    simp [set_profile_active, spec_due_base, hl, max_eq_right hv]
    omega

theorem claim_C9_witness :
    should_refresh (set_profile_active demoProfile true 55) 115 = true :=
  (claim_C9.2.2 demoProfile 55 115 (by decide)
      (fun v hv => by
        have h40 : demoProfile.last_refreshed_at = some 40 := rfl
        have hv2 : (40 : Int) = v := Option.some.inj (h40 ▸ hv)
        omega)).mpr
    ⟨by decide, by decide⟩

/-- The sequential padding of `codeGlobPattern` agrees with the spec's
symmetric description ("pad with `*` at the start/end if not already
wildcarded there") on every non-empty term. -/
theorem codeGlobPattern_eq_spec_pad (t : List Char) (hne : t ≠ []) :
    codeGlobPattern t =
      (if t.head? = some '*' then [] else ['*']) ++ t ++
        (if t.getLast? = some '*' then [] else ['*']) := by
  rcases t with _ | ⟨c, rest⟩
  · exact absurd rfl hne
  · unfold codeGlobPattern
    have hlast : ('*' :: c :: rest).getLast? = (c :: rest).getLast? :=
      List.getLast?_cons_cons
    by_cases h1 : c = '*'
    · subst h1
      by_cases h2 : ('*' :: rest).getLast? = some '*' <;> simp [h2]
    · by_cases h2 : (c :: rest).getLast? = some '*' <;> simp [h1, h2, hlast]

/-- Claim C8: `entry_matches_filter_term` implements exactly the spec's
term evaluation (case-insensitive, glob after `*`-padding when the term
contains `*` or `?`, substring containment otherwise); in particular
`premium` matches "Product Alpha Premium Edition" and `build-2?*`
matches "Toolkit build-21 candidate". -/
theorem claim_C8 :
    (∀ (entry : FeedEntry) (term : String),
      entry_matches_filter_term entry term = spec_term_matches entry term) ∧
    entry_matches_filter_term
      { title := "Product Alpha Premium Edition", link := "", summary := "", published_at := 0 }
      "premium" = true ∧
    entry_matches_filter_term
      { title := "Toolkit build-21 candidate", link := "", summary := "", published_at := 0 }
      "build-2?*" = true ∧
    entry_matches_filter_term
      { title := "PREMIUM News", link := "", summary := "", published_at := 0 }
      "PrEmIuM" = true ∧
    entry_matches_filter_term
      { title := "Generic baseline package", link := "", summary := "", published_at := 0 }
      "premium" = false := by
  refine ⟨?_, by decide, by decide, by decide, by decide⟩
  intro entry term
  unfold entry_matches_filter_term spec_term_matches
  by_cases hw : ((pyLower term).toList.any fun c => c = '*' || c = '?') = true
  · have hne : (pyLower term).toList ≠ [] := by
      intro h
      rw [h] at hw
      simp at hw
    simp only [hw, if_true, codeGlobPattern_eq_spec_pad _ hne]
  · simp only [Bool.not_eq_true] at hw
    simp only [hw, Bool.false_eq_true, if_false]

/-- Claim C1 counterexample: for a configuration whose include rules hold
the malformed line `(alpha OR premium`, the rules are indeed rejected
with the parse `ValueError`, but only *after* network access: the fetch
outcome is consumed first (`app.py` line 729), so a fetch failure — or an
empty item-selector match — preempts the rule error, contradicting
"raises a ValidationError before any network access". -/
theorem claim_C1_counterexample :
    parse_filter_rules demoConfigBadRule.filter_rules =
      .error (.valueError "Incomplete filter expression.") ∧
    extract_feed_entries demoConfigBadRule (.error demoFetchError) 0 = .error demoFetchError ∧
    demoFetchError ≠ .valueError "Incomplete filter expression." ∧
    extract_feed_entries demoConfigBadRule
        (.ok (.elem "[document]" [] [.elem "html" [] []])) 0 =
      .error (.valueError "No topic nodes matched the item selector.") ∧
    extract_feed_entries demoConfigBadRule (.ok demoDoc) 0 =
      .error (.valueError "Incomplete filter expression.") := by
  decide

/-- Claim C1 (amended): a malformed include or exclude rule line makes
`extract_feed_entries` fail with the parse `ValueError`, but only after
the page has been fetched and the item selector has matched: the fetch
outcome is consumed first and a fetch failure propagates as-is, and an
empty item-node match fails first; given a successful fetch with at least
one item node, the malformed rules abort the extraction with the
validation error before any entry is built. -/
theorem claim_C1 :
    (∀ (config : FeedRequest) (e : AppError) (now : Int),
      extract_feed_entries config (.error e) now = .error e) ∧
    (∀ (config : FeedRequest) (doc : DomNode) (now : Int) (e : AppError),
      (nodeSelect doc config.item_selector).isEmpty = false →
      parse_filter_rules config.filter_rules = .error e →
      extract_feed_entries config (.ok doc) now = .error e) ∧
    (∀ (config : FeedRequest) (doc : DomNode) (now : Int)
        (include_rules : List FilterAst) (e : AppError),
      (nodeSelect doc config.item_selector).isEmpty = false →
      parse_filter_rules config.filter_rules = .ok include_rules →
      parse_filter_rules config.exclude_filter_rules = .error e →
      extract_feed_entries config (.ok doc) now = .error e) := by
  refine ⟨fun config e now => rfl, ?_, ?_⟩
  · intro config doc now e hnodes hrules
    simp [extract_feed_entries, hnodes, hrules]
  · intro config doc now include_rules e hnodes hinc hexc
    simp [extract_feed_entries, hnodes, hinc, hexc]

theorem claim_C1_witness :
    (nodeSelect demoDoc demoConfigBadRule.item_selector).isEmpty = false ∧
    extract_feed_entries demoConfigBadRule (.ok demoDoc) 5 =
      .error (.valueError "Incomplete filter expression.") :=
  ⟨by decide,
   claim_C1.2.1 demoConfigBadRule demoDoc 5 (.valueError "Incomplete filter expression.")
     (by decide) (by decide)⟩

/-- Claim C7 counterexample: on a non-empty document, the item selector
`self` does *not* make the document root the single item node —
`extract_feed_entries` resolves item nodes with a plain
`soup.select(config.item_selector)` (`app.py` line 733), for which `self`
is an ordinary type selector matching `<self>` tags, so the extraction
fails with the no-item-nodes `ValueError`. -/
theorem claim_C7_counterexample :
    (nodeDescendants demoDoc).isEmpty = false ∧
    extract_feed_entries demoConfigSelfItems (.ok demoDoc) 0 =
      .error (.valueError "No topic nodes matched the item selector.") := by
  decide

/-- Claim C7 (amended): the `:scope`/`self` special case ("use the
current node itself") applies where `app.py` calls
`select_node_with_scope` / `select_nodes_with_scope` — resolving title,
link and summary nodes within an item node and link collections — not to
item-node resolution, which uses a plain document `select`; extraction
fails with the no-item-nodes `ValueError` whenever that select returns
nothing. -/
theorem claim_C7 :
    (∀ (node : DomNode) (selector : String),
      pyStrip selector = ":scope" ∨ pyStrip selector = "self" →
      select_nodes_with_scope node selector = [node] ∧
      select_node_with_scope node selector = some node) ∧
    (∀ (config : FeedRequest) (doc : DomNode) (now : Int),
      (nodeSelect doc config.item_selector).isEmpty = true →
      extract_feed_entries config (.ok doc) now =
        .error (.valueError "No topic nodes matched the item selector.")) := by
  constructor
  · intro node selector h
    constructor <;> simp [select_nodes_with_scope, select_node_with_scope, h]
  · intro config doc now h
    simp [extract_feed_entries, h]

theorem claim_C7_witness :
    select_nodes_with_scope demoDoc " self " = [demoDoc] ∧
    extract_feed_entries { demoConfig with item_selector := ".no-such-class" } (.ok demoDoc) 0 =
      .error (.valueError "No topic nodes matched the item selector.") :=
  ⟨(claim_C7.1 demoDoc " self " (by decide)).1,
   claim_C7.2 { demoConfig with item_selector := ".no-such-class" } demoDoc 0 (by decide)⟩

/-- Loop invariant of the primary extraction pass: every collected entry
comes from a successful `build_entry_from_nodes` (so any property `P` of
such entries holds), passes the inline include/exclude filters, and the
accumulator never exceeds `max_items` (when it starts below it) and never
shrinks. -/
theorem goItemNodes_spec (config : FeedRequest) (now : Int)
    (incl excl : List FilterAst) (P : FeedEntry → Prop)
    (hP : ∀ (node : DomNode) (entry : FeedEntry),
      build_entry_from_nodes node (select_node_with_scope node config.title_selector)
        (select_node_with_scope node config.link_selector) none config now = .ok (some entry) →
      P entry) :
    ∀ (nodes : List DomNode) (acc r : List FeedEntry),
      (∀ e ∈ acc, P e ∧ entryPassesFilters incl excl e = true) →
      goItemNodes config now incl excl nodes acc = .ok r →
      ((∀ e ∈ r, P e ∧ entryPassesFilters incl excl e = true) ∧
        (acc.length < config.max_items → r.length ≤ config.max_items) ∧
        acc.length ≤ r.length) := by
  intro nodes
  induction nodes with
  | nil =>
    intro acc r hacc h
    simp only [goItemNodes] at h
    cases h
    exact ⟨hacc, fun h2 => by omega, le_refl _⟩
  | cons node rest ih =>
    intro acc r hacc h
    simp only [goItemNodes] at h
    cases hbuild : build_entry_from_nodes node
        (select_node_with_scope node config.title_selector)
        (select_node_with_scope node config.link_selector) none config now with
    | error e =>
      rw [hbuild] at h
      exact absurd h (by simp)
    | ok maybeEntry =>
      rw [hbuild] at h
      cases maybeEntry with
      | none => exact ih acc r hacc h
      | some entry =>
        simp only at h
        split at h
        · exact ih acc r hacc h
        · split at h
          · exact ih acc r hacc h
          · rename_i hc1 hc2
            have hpasses : entryPassesFilters incl excl entry = true := by
              simp only [entryPassesFilters, Bool.and_eq_true, Bool.or_eq_true]
              constructor
              · by_cases hie : incl.isEmpty = true
                · exact Or.inl hie
                · rcases Bool.eq_false_or_eq_true (entry_matches_any_filter_rule entry incl) with hm | hm
                  · exact Or.inr hm
                  · exact absurd ⟨by simp [hie], by simp [hm]⟩ hc1
              · by_cases hee : excl.isEmpty = true
                · exact Or.inl hee
                · rcases Bool.eq_false_or_eq_true (entry_matches_any_filter_rule entry excl) with hm | hm
                  · exact absurd ⟨by simp [hee], hm⟩ hc2
                  · exact Or.inr (by simp [hm])
            have hentry : P entry ∧ entryPassesFilters incl excl entry = true :=
              ⟨hP node entry hbuild, hpasses⟩
            have hacc2 : ∀ e ∈ acc ++ [entry], P e ∧ entryPassesFilters incl excl e = true := by
              intro e he
              rcases List.mem_append.mp he with he2 | he2
              · exact hacc e he2
              · rw [List.mem_singleton.mp he2]
                exact hentry
            split at h
            · rename_i hstop
              cases h
              refine ⟨hacc2, fun hlt => ?_, by simp⟩
              simp only [List.length_append, List.length_singleton]
              omega
            · rename_i hgo
              obtain ⟨hall, hlen, hmono⟩ := ih (acc ++ [entry]) r hacc2 h
              refine ⟨hall, fun hlt => ?_, ?_⟩
              · apply hlen
                simp only [List.length_append, List.length_singleton] at hgo ⊢
                omega
              · simp only [List.length_append, List.length_singleton] at hmono
                omega

/-- Loop invariant of the link-expansion pass over the link nodes of one
item node: collected links are pairwise distinct and recorded in the
seen-set, every collected entry has property `P` (any consequence of a
successful `build_entry_from_nodes`) and passes the inline filters, and
the accumulator respects `max_items` (the returned flag tells whether the
cap was reached). -/
theorem goLinkNodes_spec (root : DomNode) (config : FeedRequest) (now : Int)
    (incl excl : List FilterAst) (node : DomNode) (P : FeedEntry → Prop)
    (hP : ∀ (link_node : DomNode) (entry : FeedEntry),
      build_entry_from_nodes node (some (resolve_repeated_link_title_node link_node config))
        (some link_node)
        (extract_repeated_link_title_text root node link_node
          (resolve_repeated_link_title_node link_node config) config)
        config now = .ok (some entry) →
      P entry) :
    ∀ (links : List DomNode) (seen acc2seen : List String) (acc acc2 : List FeedEntry) (flag : Bool),
      (acc.map FeedEntry.link).Nodup →
      (∀ l ∈ acc.map FeedEntry.link, l ∈ seen) →
      (∀ e ∈ acc, P e ∧ entryPassesFilters incl excl e = true) →
      goLinkNodes root config now incl excl node links seen acc = .ok (acc2seen, acc2, flag) →
      ((acc2.map FeedEntry.link).Nodup ∧
        (∀ l ∈ acc2.map FeedEntry.link, l ∈ acc2seen) ∧
        (∀ e ∈ acc2, P e ∧ entryPassesFilters incl excl e = true) ∧
        (acc.length < config.max_items →
          (acc2.length ≤ config.max_items ∧ (flag = false → acc2.length < config.max_items))) ∧
        acc.length ≤ acc2.length) := by
  intro links
  induction links with
  | nil =>
    intro seen acc2seen acc acc2 flag hnd hsub hacc h
    simp only [goLinkNodes] at h
    cases h
    exact ⟨hnd, hsub, hacc, fun hlt => ⟨by omega, fun _ => hlt⟩, le_refl _⟩
  | cons link rest ih =>
    intro seen acc2seen acc acc2 flag hnd hsub hacc h
    simp only [goLinkNodes] at h
    cases hbuild : build_entry_from_nodes node
        (some (resolve_repeated_link_title_node link config)) (some link)
        (extract_repeated_link_title_text root node link
          (resolve_repeated_link_title_node link config) config)
        config now with
    | error e =>
      rw [hbuild] at h
      exact absurd h (by simp)
    | ok maybeEntry =>
      rw [hbuild] at h
      cases maybeEntry with
      | none => exact ih seen acc2seen acc acc2 flag hnd hsub hacc h
      | some entry =>
        simp only at h
        split at h
        · exact ih seen acc2seen acc acc2 flag hnd hsub hacc h
        · split at h
          · exact ih seen acc2seen acc acc2 flag hnd hsub hacc h
          · split at h
            · exact ih seen acc2seen acc acc2 flag hnd hsub hacc h
            · rename_i hseen hc1 hc2
              have hpasses : entryPassesFilters incl excl entry = true := by
                simp only [entryPassesFilters, Bool.and_eq_true, Bool.or_eq_true]
                constructor
                · by_cases hie : incl.isEmpty = true
                  · exact Or.inl hie
                  · rcases Bool.eq_false_or_eq_true (entry_matches_any_filter_rule entry incl) with hm | hm
                    · exact Or.inr hm
                    · exact absurd ⟨by simp [hie], by simp [hm]⟩ hc1
                · by_cases hee : excl.isEmpty = true
                  · exact Or.inl hee
                  · rcases Bool.eq_false_or_eq_true (entry_matches_any_filter_rule entry excl) with hm | hm
                    · exact absurd ⟨by simp [hee], hm⟩ hc2
                    · exact Or.inr (by simp [hm])
              have hnd2 : ((acc ++ [entry]).map FeedEntry.link).Nodup := by
                rw [List.map_append]
                refine List.Nodup.append hnd (by simp) ?_
                intro l hl1 hl2
                simp only [List.map_cons, List.map_nil, List.mem_singleton] at hl2
                subst hl2
                exact hseen (hsub _ hl1)
              have hsub2 : ∀ l ∈ (acc ++ [entry]).map FeedEntry.link, l ∈ entry.link :: seen := by
                intro l hl
                rw [List.map_append] at hl
                rcases List.mem_append.mp hl with hl2 | hl2
                · exact List.mem_cons_of_mem _ (hsub _ hl2)
                · simp only [List.map_cons, List.map_nil, List.mem_singleton] at hl2
                  subst hl2
                  exact List.mem_cons_self _ _
              have hacc2 : ∀ e ∈ acc ++ [entry], P e ∧ entryPassesFilters incl excl e = true := by
                intro e he
                rcases List.mem_append.mp he with he2 | he2
                · exact hacc e he2
                · rw [List.mem_singleton.mp he2]
                  exact ⟨hP link entry hbuild, hpasses⟩
              split at h
              · rename_i hstop
                cases h
                refine ⟨hnd2, hsub2, hacc2, fun hlt => ?_, by simp⟩
                constructor
                · simp only [List.length_append, List.length_singleton]
                  omega
                · intro hflag
                  exact absurd hflag (by simp)
              · rename_i hgo
                obtain ⟨ha, hb, hc, hd, he⟩ :=
                  ih (entry.link :: seen) acc2seen (acc ++ [entry]) acc2 flag hnd2 hsub2 hacc2 h
                refine ⟨ha, hb, hc, fun hlt => ?_, ?_⟩
                · apply hd
                  simp only [List.length_append, List.length_singleton] at hgo ⊢
                  omega
                · simp only [List.length_append, List.length_singleton] at he
                  omega

/-- Loop invariant of the link-expansion pass over all item-node groups:
the result has pairwise distinct links, every entry satisfies `P` and the
inline filters, and the result respects `max_items`. -/
theorem goLinkGroups_spec (root : DomNode) (config : FeedRequest) (now : Int)
    (incl excl : List FilterAst) (P : FeedEntry → Prop)
    (hP : ∀ (node link_node : DomNode) (entry : FeedEntry),
      build_entry_from_nodes node (some (resolve_repeated_link_title_node link_node config))
        (some link_node)
        (extract_repeated_link_title_text root node link_node
          (resolve_repeated_link_title_node link_node config) config)
        config now = .ok (some entry) →
      P entry) :
    ∀ (groups : List (DomNode × List DomNode)) (seen : List String) (acc r : List FeedEntry),
      (acc.map FeedEntry.link).Nodup →
      (∀ l ∈ acc.map FeedEntry.link, l ∈ seen) →
      (∀ e ∈ acc, P e ∧ entryPassesFilters incl excl e = true) →
      goLinkGroups root config now incl excl groups seen acc = .ok r →
      ((r.map FeedEntry.link).Nodup ∧
        (∀ e ∈ r, P e ∧ entryPassesFilters incl excl e = true) ∧
        (acc.length < config.max_items → r.length ≤ config.max_items) ∧
        acc.length ≤ r.length) := by
  intro groups
  induction groups with
  | nil =>
    intro seen acc r h1 h2 h3 h
    simp only [goLinkGroups] at h
    cases h
    exact ⟨h1, h3, fun hlt => by omega, le_refl _⟩
  | cons g rest ih =>
    intro seen acc r h1 h2 h3 h
    obtain ⟨node, link_nodes⟩ := g
    simp only [goLinkGroups] at h
    cases hinner : goLinkNodes root config now incl excl node link_nodes seen acc with
    | error e =>
      rw [hinner] at h
      exact absurd h (by simp)
    | ok tri =>
      obtain ⟨seen2, acc2, flag⟩ := tri
      rw [hinner] at h
      obtain ⟨ha, hb, hc, hd, he⟩ :=
        goLinkNodes_spec root config now incl excl node P (hP node) link_nodes seen seen2 acc
          acc2 flag h1 h2 h3 hinner
      cases flag with
      | true =>
        simp only at h
        cases h
        exact ⟨ha, hc, fun hlt => (hd hlt).1, he⟩
      | false =>
        simp only at h
        obtain ⟨ra, rb, rc, rd⟩ := ih seen2 acc2 r ha hb hc h
        refine ⟨ra, rb, fun hlt => rc ((hd hlt).2 rfl), by omega⟩

/-- `apply_entry_filters` only ever removes entries. -/
theorem apply_entry_filters_subset (entries : List FeedEntry) (incl excl : List FilterAst) :
    ∀ e ∈ apply_entry_filters entries incl excl, e ∈ entries := by
  intro e he
  unfold apply_entry_filters at he
  split at he
  · exact he
  · exact List.mem_of_mem_filter he

/-- `apply_entry_filters` is the identity on a list whose entries all
pass the inline filters (which both extraction passes guarantee). -/
theorem apply_entry_filters_of_passes (entries : List FeedEntry) (incl excl : List FilterAst)
    (hpass : ∀ e ∈ entries, entryPassesFilters incl excl e = true) :
    apply_entry_filters entries incl excl = entries := by
  unfold apply_entry_filters
  split
  · rfl
  · exact List.filter_eq_self.mpr hpass

/-- A successful `normalize_topic_link` returns an http(s) URL on the
source host. -/
theorem normalize_topic_link_ok (source_url href link : String)
    (h : normalize_topic_link source_url href = .ok link) :
    ((urlparse_min link).scheme = "http" ∨ (urlparse_min link).scheme = "https") ∧
      (urlparse_min link).netloc = (urlparse_min source_url).netloc := by
  simp only [normalize_topic_link] at h
  split_ifs at h with h1 h2
  cases h
  exact ⟨h1, not_not.mp h2⟩

/-- Every entry a successful `build_entry_from_nodes` produces has an
http(s) link on the source host. -/
theorem build_entry_on_host (container : DomNode) (tn ln : Option DomNode)
    (tt : Option String) (config : FeedRequest) (now : Int) (entry : FeedEntry)
    (h : build_entry_from_nodes container tn ln tt config now = .ok (some entry)) :
    ((urlparse_min entry.link).scheme = "http" ∨ (urlparse_min entry.link).scheme = "https") ∧
      (urlparse_min entry.link).netloc = (urlparse_min config.source_url).netloc := by
  unfold build_entry_from_nodes at h
  cases tn with
  | none => exact absurd h (by simp)
  | some tnode =>
    cases ln with
    | none => exact absurd h (by simp)
    | some lnode =>
      simp only at h
      cases hhref : nodeGetAttr lnode "href" with
      | none =>
        rw [hhref] at h
        exact absurd h (by simp)
      | some href =>
        rw [hhref] at h
        simp only at h
        split at h
        · exact absurd h (by simp)
        · cases hnorm : normalize_topic_link config.source_url href with
          | error err =>
            rw [hnorm] at h
            exact absurd h (by simp)
          | ok link =>
            rw [hnorm] at h
            simp only at h
            split at h
            · exact absurd h (by simp)
            · have hlink : entry.link = link := by
                cases h
                rfl
              rw [hlink]
              exact normalize_topic_link_ok config.source_url href link hnorm

/-- An href that resolves to a non-http(s) scheme or an off-source host
makes `normalize_topic_link` raise a `ValueError`. -/
theorem normalize_topic_link_offhost (source_url href : String)
    (hcond : ¬ ((urlparse_min (urljoin_min source_url href)).scheme = "http" ∨
        (urlparse_min (urljoin_min source_url href)).scheme = "https") ∨
      (urlparse_min (urljoin_min source_url href)).netloc ≠ (urlparse_min source_url).netloc) :
    ∃ msg, normalize_topic_link source_url href = .error (.valueError msg) := by
  rcases hcond with hbad | hbad
  · refine ⟨"Topic links must resolve to http or https URLs.", ?_⟩
    simp [normalize_topic_link, hbad]
  · by_cases hs : (urlparse_min (urljoin_min source_url href)).scheme = "http" ∨
        (urlparse_min (urljoin_min source_url href)).scheme = "https"
    · refine ⟨"Off-site topic links are blocked by default.", ?_⟩
      simp [normalize_topic_link, hs, hbad]
    · refine ⟨"Topic links must resolve to http or https URLs.", ?_⟩
      simp [normalize_topic_link, hs]

/-- Claim C2: a processed candidate whose (non-empty) href resolves to a
non-http(s) scheme or to a host different from the source host makes the
candidate construction raise a `ValueError` (it is never skipped as
`None`), and consequently any successful `extract_feed_entries` call —
primary pass or link-expansion pass — returns only entries whose links
are http(s) URLs on the source host: a bad candidate fails the whole
extraction and no partial list escapes. -/
theorem claim_C2 :
    (∀ source_url href : String,
      (¬ ((urlparse_min (urljoin_min source_url href)).scheme = "http" ∨
          (urlparse_min (urljoin_min source_url href)).scheme = "https") ∨
        (urlparse_min (urljoin_min source_url href)).netloc ≠ (urlparse_min source_url).netloc) →
      ∃ msg, normalize_topic_link source_url href = .error (.valueError msg)) ∧
    (∀ (container tnode lnode : DomNode) (title_text : Option String) (config : FeedRequest)
        (now : Int) (href : String),
      nodeGetAttr lnode "href" = some href →
      href ≠ "" →
      (¬ ((urlparse_min (urljoin_min config.source_url href)).scheme = "http" ∨
          (urlparse_min (urljoin_min config.source_url href)).scheme = "https") ∨
        (urlparse_min (urljoin_min config.source_url href)).netloc ≠
          (urlparse_min config.source_url).netloc) →
      ∃ msg, build_entry_from_nodes container (some tnode) (some lnode) title_text config now =
        .error (.valueError msg)) ∧
    (∀ (config : FeedRequest) (fetched : Except AppError DomNode) (now : Int)
        (r : List FeedEntry),
      extract_feed_entries config fetched now = .ok r →
      ∀ e ∈ r,
        ((urlparse_min e.link).scheme = "http" ∨ (urlparse_min e.link).scheme = "https") ∧
          (urlparse_min e.link).netloc = (urlparse_min config.source_url).netloc) := by
  refine ⟨normalize_topic_link_offhost, ?_, ?_⟩
  · intro container tnode lnode title_text config now href hhref hne hcond
    obtain ⟨msg, hmsg⟩ := normalize_topic_link_offhost config.source_url href hcond
    refine ⟨msg, ?_⟩
    simp [build_entry_from_nodes, hhref, hne, hmsg]
  · intro config fetched now r h e he
    cases fetched with
    | error err => exact absurd h (by simp [extract_feed_entries])
    | ok soup =>
      simp only [extract_feed_entries] at h
      by_cases hempty : (nodeSelect soup config.item_selector).isEmpty
      · rw [if_pos hempty] at h
        exact Except.noConfusion h
      · rw [if_neg hempty] at h
        cases hpf : parse_filter_rules config.filter_rules with
        | error e1 =>
          rw [hpf] at h
          simp at h
        | ok incl =>
          rw [hpf] at h
          simp only at h
          cases hpe : parse_filter_rules config.exclude_filter_rules with
          | error e2 =>
            rw [hpe] at h
            simp at h
          | ok excl =>
            rw [hpe] at h
            simp only at h
            cases hprim : extract_entries_from_item_nodes (nodeSelect soup config.item_selector)
                config now incl excl with
            | error e3 =>
              rw [hprim] at h
              simp at h
            | ok primary =>
              rw [hprim] at h
              simp only at h
              unfold extract_entries_from_item_nodes at hprim
              have hprimHost : ∀ x ∈ primary,
                  ((urlparse_min x.link).scheme = "http" ∨ (urlparse_min x.link).scheme = "https") ∧
                    (urlparse_min x.link).netloc = (urlparse_min config.source_url).netloc := by
                intro x hx
                exact ((goItemNodes_spec config now incl excl _
                  (fun nd en hb => build_entry_on_host nd _ _ none config now en hb)
                  (nodeSelect soup config.item_selector) [] primary (by simp) hprim).1 x hx).1
              by_cases hfb : should_use_container_link_fallback
                  (nodeSelect soup config.item_selector) primary config
              · rw [if_pos hfb] at h
                cases hcont : extract_entries_from_link_collections soup
                    (nodeSelect soup config.item_selector) config now incl excl with
                | error e4 =>
                  rw [hcont] at h
                  simp at h
                | ok container =>
                  rw [hcont] at h
                  simp only at h
                  unfold extract_entries_from_link_collections at hcont
                  have hcontHost : ∀ x ∈ container,
                      ((urlparse_min x.link).scheme = "http" ∨
                        (urlparse_min x.link).scheme = "https") ∧
                        (urlparse_min x.link).netloc = (urlparse_min config.source_url).netloc := by
                    intro x hx
                    exact ((goLinkGroups_spec soup config now incl excl _
                      (fun nd ln en hb => build_entry_on_host nd _ _ _ config now en hb) _ [] []
                      container (by simp) (by simp) (by simp) hcont).2.1 x hx).1
                  by_cases hlen : primary.length < container.length
                  · rw [if_pos hlen] at h
                    by_cases hne2 : container.isEmpty = true
                    · rw [if_pos hne2] at h
                      exact Except.noConfusion h
                    · rw [if_neg hne2] at h
                      cases h
                      exact hcontHost e (apply_entry_filters_subset _ incl excl e
                        (List.take_subset _ _ he))
                  · rw [if_neg hlen] at h
                    by_cases hne2 : primary.isEmpty = true
                    · rw [if_pos hne2] at h
                      exact Except.noConfusion h
                    · rw [if_neg hne2] at h
                      cases h
                      exact hprimHost e (apply_entry_filters_subset _ incl excl e
                        (List.take_subset _ _ he))
              · rw [if_neg hfb] at h
                simp only at h
                by_cases hne2 : primary.isEmpty = true
                · rw [if_pos hne2] at h
                  exact Except.noConfusion h
                · rw [if_neg hne2] at h
                  cases h
                  exact hprimHost e (apply_entry_filters_subset _ incl excl e
                    (List.take_subset _ _ he))

theorem claim_C2_witness :
    ∃ msg, normalize_topic_link "https://example.com/forum" "https://evil.test/topic" =
      .error (.valueError msg) :=
  claim_C2.1 "https://example.com/forum" "https://evil.test/topic" (by decide)

/-- Claim C6 counterexample: a successful extraction served from the
primary pass can repeat links.  Two item nodes pointing at the same topic
produce two entries with the same link — `extract_entries_from_item_nodes`
performs no deduplication (only the link-expansion pass keeps a
`seen_links` set), and the fallback does not even run here because the
primary pass yielded more than one entry. -/
theorem claim_C6_counterexample :
    extract_feed_entries demoConfig (.ok demoDupDoc) 2 = .ok demoDupEntries ∧
    ¬ (demoDupEntries.map FeedEntry.link).Nodup := by
  decide

/-- Claim C6 (amended): link uniqueness holds for the result of the
link-expansion fallback pass, which deduplicates by resolved link via its
`seen_links` set; the primary pass does not deduplicate, so a successful
extraction whose result comes from the primary pass can contain repeated
links. -/
theorem claim_C6 (root : DomNode) (nodes : List DomNode) (config : FeedRequest) (now : Int)
    (incl excl : List FilterAst) (r : List FeedEntry)
    (h : extract_entries_from_link_collections root nodes config now incl excl = .ok r) :
    (r.map FeedEntry.link).Nodup := by
  unfold extract_entries_from_link_collections at h
  exact (goLinkGroups_spec root config now incl excl (fun _ => True) (fun _ _ _ _ => trivial) _
    [] [] r (by simp) (by simp) (by simp) h).1

theorem claim_C6_witness :
    (demoFallbackEntries.map FeedEntry.link).Nodup :=
  claim_C6 demoFallbackDoc (nodeSelect demoFallbackDoc "p") demoConfigFallback 3 [] []
    demoFallbackEntries (by decide)

/-- Characterisation of a successful `extract_feed_entries` run: because
both passes filter inline and cap at `max_items`, the final
`apply_entry_filters ... [:max_items]` step is the identity, and the
result is the primary pass's list, or — when the fallback triggered — the
longer of the fallback and primary lists. -/
theorem extract_feed_entries_result (config : FeedRequest) (doc : DomNode) (now : Int)
    (incl excl : List FilterAst) (primary result : List FeedEntry)
    (hmax : 1 ≤ config.max_items)
    (hIncl : parse_filter_rules config.filter_rules = .ok incl)
    (hExcl : parse_filter_rules config.exclude_filter_rules = .ok excl)
    (hPrim : extract_entries_from_item_nodes (nodeSelect doc config.item_selector) config now
      incl excl = .ok primary)
    (hRun : extract_feed_entries config (.ok doc) now = .ok result) :
    (should_use_container_link_fallback (nodeSelect doc config.item_selector) primary config
        = false ∧
      result = primary) ∨
    (∃ container,
      should_use_container_link_fallback (nodeSelect doc config.item_selector) primary config
        = true ∧
      extract_entries_from_link_collections doc (nodeSelect doc config.item_selector) config now
        incl excl = .ok container ∧
      result = if primary.length < container.length then container else primary) := by
  have hPrimGo := hPrim
  unfold extract_entries_from_item_nodes at hPrimGo
  have hprimSpec := goItemNodes_spec config now incl excl (fun _ => True) (fun _ _ _ => trivial)
    (nodeSelect doc config.item_selector) [] primary (by simp) hPrimGo
  have hprimAll : ∀ e ∈ primary, entryPassesFilters incl excl e = true :=
    fun e he => ((hprimSpec.1) e he).2
  have hprimLen : primary.length ≤ config.max_items := by
    apply hprimSpec.2.1
    simpa using hmax
  simp only [extract_feed_entries] at hRun
  by_cases hempty : (nodeSelect doc config.item_selector).isEmpty
  · rw [if_pos hempty] at hRun
    exact Except.noConfusion hRun
  · rw [if_neg hempty, hIncl] at hRun
    simp only at hRun
    rw [hExcl] at hRun
    simp only at hRun
    rw [hPrim] at hRun
    simp only at hRun
    by_cases hfb : should_use_container_link_fallback (nodeSelect doc config.item_selector)
        primary config
    · rw [if_pos hfb] at hRun
      cases hCont : extract_entries_from_link_collections doc
          (nodeSelect doc config.item_selector) config now incl excl with
      | error e4 =>
        rw [hCont] at hRun
        simp at hRun
      | ok container =>
        rw [hCont] at hRun
        simp only at hRun
        have hContGo := hCont
        unfold extract_entries_from_link_collections at hContGo
        have hcontSpec := goLinkGroups_spec doc config now incl excl (fun _ => True)
          (fun _ _ _ _ => trivial) _ [] [] container (by simp) (by simp) (by simp) hContGo
        have hcontAll : ∀ e ∈ container, entryPassesFilters incl excl e = true :=
          fun e he => (hcontSpec.2.1 e he).2
        have hcontLen : container.length ≤ config.max_items := by
          apply hcontSpec.2.2.1
          simpa using hmax
        refine Or.inr ⟨container, hfb, rfl, ?_⟩
        by_cases hlen : primary.length < container.length
        · rw [if_pos hlen] at hRun ⊢
          rw [apply_entry_filters_of_passes container incl excl hcontAll,
            List.take_of_length_le hcontLen] at hRun
          by_cases hne2 : container.isEmpty = true
          · rw [if_pos hne2] at hRun
            exact Except.noConfusion hRun
          · rw [if_neg hne2] at hRun
            cases hRun
            rfl
        · rw [if_neg hlen] at hRun ⊢
          rw [apply_entry_filters_of_passes primary incl excl hprimAll,
            List.take_of_length_le hprimLen] at hRun
          by_cases hne2 : primary.isEmpty = true
          · rw [if_pos hne2] at hRun
            exact Except.noConfusion hRun
          · rw [if_neg hne2] at hRun
            cases hRun
            rfl
    · rw [if_neg hfb] at hRun
      simp only at hRun
      rw [apply_entry_filters_of_passes primary incl excl hprimAll,
        List.take_of_length_le hprimLen] at hRun
      by_cases hne2 : primary.isEmpty = true
      · rw [if_pos hne2] at hRun
        exact Except.noConfusion hRun
      · rw [if_neg hne2] at hRun
        cases hRun
        exact Or.inl ⟨by simp [hfb], rfl⟩

/-- Claim C5: the link-expansion fallback runs iff the primary pass
produced at most one entry and some item node holds more than one
link-selector match; when it runs, its result replaces the primary result
only if it is strictly longer, so the final entry count of a successful
extraction is always at least the primary pass's count. -/
theorem claim_C5 :
    (∀ (nodes : List DomNode) (entries : List FeedEntry) (config : FeedRequest),
      should_use_container_link_fallback nodes entries config = true ↔
        (entries.length ≤ 1 ∧
          ∃ node ∈ nodes, 1 < (select_nodes_with_scope node config.link_selector).length)) ∧
    (∀ (config : FeedRequest) (doc : DomNode) (now : Int) (incl excl : List FilterAst)
        (primary container result : List FeedEntry),
      1 ≤ config.max_items →
      parse_filter_rules config.filter_rules = .ok incl →
      parse_filter_rules config.exclude_filter_rules = .ok excl →
      extract_entries_from_item_nodes (nodeSelect doc config.item_selector) config now incl excl
        = .ok primary →
      should_use_container_link_fallback (nodeSelect doc config.item_selector) primary config
        = true →
      extract_entries_from_link_collections doc (nodeSelect doc config.item_selector) config now
        incl excl = .ok container →
      extract_feed_entries config (.ok doc) now = .ok result →
      result = if primary.length < container.length then container else primary) ∧
    (∀ (config : FeedRequest) (doc : DomNode) (now : Int) (incl excl : List FilterAst)
        (primary result : List FeedEntry),
      1 ≤ config.max_items →
      parse_filter_rules config.filter_rules = .ok incl →
      parse_filter_rules config.exclude_filter_rules = .ok excl →
      extract_entries_from_item_nodes (nodeSelect doc config.item_selector) config now incl excl
        = .ok primary →
      extract_feed_entries config (.ok doc) now = .ok result →
      primary.length ≤ result.length) := by
  refine ⟨?_, ?_, ?_⟩
  · intro nodes entries config
    unfold should_use_container_link_fallback
    by_cases h : 1 < entries.length
    · rw [if_pos h]
      constructor
      · intro hfalse
        exact absurd hfalse (by simp)
      · rintro ⟨h1, -⟩
        omega
    · rw [if_neg h]
      simp only [List.any_eq_true, decide_eq_true_eq]
      constructor
      · intro hx
        exact ⟨by omega, hx⟩
      · rintro ⟨-, hx⟩
        exact hx
  · intro config doc now incl excl primary container result hmax hIncl hExcl hPrim hFall hCont hRun
    rcases extract_feed_entries_result config doc now incl excl primary result hmax hIncl hExcl
        hPrim hRun with ⟨hfalse, -⟩ | ⟨c, -, hc, hres⟩
    · rw [hFall] at hfalse
      exact absurd hfalse (by simp)
    · rw [hCont] at hc
      cases hc
      exact hres
  · intro config doc now incl excl primary result hmax hIncl hExcl hPrim hRun
    rcases extract_feed_entries_result config doc now incl excl primary result hmax hIncl hExcl
        hPrim hRun with ⟨-, hres⟩ | ⟨c, -, -, hres⟩
    · rw [hres]
    · subst hres
      by_cases hlen2 : primary.length < c.length
      · rw [if_pos hlen2]
        omega
      · rw [if_neg hlen2]

theorem claim_C5_witness :
    demoPrimaryEntries.length ≤ demoFallbackEntries.length :=
  claim_C5.2.2 demoConfigFallback demoFallbackDoc 3 [] [] demoPrimaryEntries
    demoFallbackEntries (by decide) (by decide) (by decide) (by decide) (by decide)
